import Mathlib

/-!
# Event headers of the EVEL library (`evel_event.c`)

A shallow embedding of the event-header code: the process-wide sequence
counter, header initialisation, the heartbeat factory, the header mutators,
the header encoder, the release of a header, the domain dispatcher
`evel_json_encode_event` and the vendor field with its encoder.

Conventions of the embedding.

* A C `int` is an `Int` reduced to 32 bits in two's complement after every
  arithmetic step (`wrap_int`); `long`/`time_t` are 64 bits (`wrap_long`) and
  `unsigned long long` is a `Nat` below `2 ^ 64` (`to_ull`). Signed overflow,
  which C leaves undefined, wraps, as it does on the usual targets.
* A `char *` is an `Option String`; `none` is the NULL pointer.
* A function that can fail an `assert` returns an `Option`; `none` is the abort.
* The static `event_sequence` is passed in and returned explicitly.
* `strdup` is taken to succeed; the `malloc` of the heartbeat factory, whose
  failure the source handles, is an explicit argument.
* Constants, globals and tables that `evel_event.c` takes from its headers are
  collected in `EVEL_ENVIRONMENT`; the throttle provider, the body encoders of
  the other domains and the text the buffer engine writes are collected in
  `EVEL_COLLABORATORS`.
-/

/-! ## Machine integers and formatting -/

/-- Value of `x` in a signed two's-complement word of `bits` bits. -/
def wrap_signed (bits : Nat) (x : Int) : Int :=
  (x + 2 ^ (bits - 1)) % 2 ^ bits - 2 ^ (bits - 1)

/-- Largest value of a C `int`. -/
def INT_MAX : Int := 2147483647

/-- Smallest value of a C `int`. -/
def INT_MIN : Int := -2147483648

/-- Result of an `int` computation whose exact value is `x`. -/
def wrap_int (x : Int) : Int := wrap_signed 32 x

/-- Result of a `long` computation whose exact value is `x`. -/
def wrap_long (x : Int) : Int := wrap_signed 64 x

/-- Conversion of a signed value to `unsigned long long`. -/
def to_ull (x : Int) : Nat := (x % 2 ^ 64).toNat

/-- Text stored by `snprintf(buf, size, "%d", x)`: the decimal digits of `x`
(with a leading minus sign when negative), cut to `size - 1` characters. -/
def snprintf_d (size : Nat) (x : Int) : String :=
  ⟨(Int.repr x).data.take (size - 1)⟩

/-! ## Data model -/

/-- The option-string type `EVEL_OPTION_STRING`: a flag and an owned string. -/
structure EVEL_OPTION_STRING where
  is_set : Bool
  value : Option String
deriving DecidableEq, Repr

/-- The option type of the internal header field. Its payload is declared
outside `evel_event.c` and is never read here; only the flag is kept. -/
structure EVEL_OPTION_INTHEADER where
  is_set : Bool
deriving DecidableEq, Repr

/-- The event domains named in the dispatch of `evel_json_encode_event`, and
the integer values that are none of them. -/
inductive EVEL_EVENT_DOMAINS where
  | EVEL_DOMAIN_INTERNAL
  | EVEL_DOMAIN_HEARTBEAT
  | EVEL_DOMAIN_FAULT
  | EVEL_DOMAIN_MEASUREMENT
  | EVEL_DOMAIN_MOBILE_FLOW
  | EVEL_DOMAIN_REPORT
  | EVEL_DOMAIN_HEARTBEAT_FIELD
  | EVEL_DOMAIN_SIPSIGNALING
  | EVEL_DOMAIN_STATE_CHANGE
  | EVEL_DOMAIN_SYSLOG
  | EVEL_DOMAIN_OTHER
  | EVEL_DOMAIN_VOICE_QUALITY
  | out_of_range (raw : Int)
deriving DecidableEq, Repr

/-- Event priorities: the one enumerator `evel_event.c` names, and the codes of
the others. -/
inductive EVEL_EVENT_PRIORITIES where
  | EVEL_PRIORITY_NORMAL
  | other (code : Int)
deriving DecidableEq, Repr

/-- The header `EVENT_HEADER`, with the fields `evel_event.c` reads or writes. -/
structure EVENT_HEADER where
  event_domain : EVEL_EVENT_DOMAINS
  event_id : Option String
  event_name : Option String
  last_epoch_microsec : Nat
  priority : EVEL_EVENT_PRIORITIES
  reporting_entity_name : Option String
  sequence : Int
  source_name : Option String
  start_epoch_microsec : Nat
  major_version : Int
  minor_version : Int
  event_type : EVEL_OPTION_STRING
  nfcnaming_code : EVEL_OPTION_STRING
  nfnaming_code : EVEL_OPTION_STRING
  reporting_entity_id : EVEL_OPTION_STRING
  source_id : EVEL_OPTION_STRING
  internal_field : EVEL_OPTION_INTHEADER
deriving DecidableEq, Repr

/-- The time reading `struct timeval` filled in by `gettimeofday`. -/
structure timeval where
  tv_sec : Int
  tv_usec : Int
deriving DecidableEq, Repr

/-- What `evel_event.c` takes from outside: the string-length constant, the
schema version constants, the configured functional role, the metadata
provider (`openstack_vm_name`, `openstack_vm_uuid`) and the enumeration-to-text
tables `evel_event_domain` and `evel_event_priority`. -/
structure EVEL_ENVIRONMENT where
  EVEL_MAX_STRING_LEN : Nat
  EVEL_HEADER_MAJOR_VERSION : Int
  EVEL_HEADER_MINOR_VERSION : Int
  functional_role : String
  openstack_vm_name : String
  openstack_vm_uuid : String
  evel_event_domain : EVEL_EVENT_DOMAINS → Option String
  evel_event_priority : EVEL_EVENT_PRIORITIES → Option String

/-- An all-zero header, the result of `memset(heartbeat, 0, sizeof ...)`. -/
def EVENT_HEADER_zeroed : EVENT_HEADER :=
  { event_domain := EVEL_EVENT_DOMAINS.out_of_range 0
    event_id := none
    event_name := none
    last_epoch_microsec := 0
    priority := EVEL_EVENT_PRIORITIES.other 0
    reporting_entity_name := none
    sequence := 0
    source_name := none
    start_epoch_microsec := 0
    major_version := 0
    minor_version := 0
    event_type := ⟨false, none⟩
    nfcnaming_code := ⟨false, none⟩
    nfnaming_code := ⟨false, none⟩
    reporting_entity_id := ⟨false, none⟩
    source_id := ⟨false, none⟩
    internal_field := ⟨false⟩ }

/-! ## The option-field primitive -/

/-- Modelled from the spec: `evel_init_option_string` is called by
`evel_event.c` but defined elsewhere. "`init()`: marks unset, no allocation." -/
def evel_init_option_string (_option : EVEL_OPTION_STRING) : EVEL_OPTION_STRING :=
  { is_set := false, value := none }

/-- Modelled from the spec: `evel_init_option_intheader` is called by
`evel_event.c` but defined elsewhere. "`init()`: marks unset, no allocation." -/
def evel_init_option_intheader (_option : EVEL_OPTION_INTHEADER) : EVEL_OPTION_INTHEADER :=
  { is_set := false }

/-- Modelled from the spec: `evel_force_option_string` is called by
`evel_event.c` but defined elsewhere. "`force(value)`: unconditionally stores
`value` ..., overwriting any previous value and freeing it first; marks set." -/
def evel_force_option_string (_option : EVEL_OPTION_STRING) (value : String) :
    EVEL_OPTION_STRING :=
  { is_set := true, value := some value }

/-- Modelled from the spec: `evel_set_option_string` is called by
`evel_event.c` but defined elsewhere. "`set(value)`: if unset, stores `value`
and marks set; if already set, the call has no effect and is not reported as
an error." The third argument is the description used only for logging. -/
def evel_set_option_string (option : EVEL_OPTION_STRING) (value : String)
    (_description : String) : EVEL_OPTION_STRING :=
  if option.is_set then option else { is_set := true, value := some value }

/-- Modelled from the spec: `evel_free_option_string` is called by
`evel_event.c` but defined elsewhere. "`free()`: releases owned value if any;
idempotent-safe to call on an unset field (no-op)." -/
def evel_free_option_string (_option : EVEL_OPTION_STRING) : EVEL_OPTION_STRING :=
  { is_set := false, value := none }

/-! ## The sequence counter and header initialisation -/

/-- The initial value of the static `event_sequence`. -/
def event_sequence_initial : Int := 1

/-- The function `evel_set_next_event_sequence`: returns the new value of
`event_sequence`. -/
def evel_set_next_event_sequence (_event_sequence : Int) (sequence : Int) : Int :=
  sequence

/-- The function `evel_init_header`, given the current `event_sequence` and the
time `tv` read by `gettimeofday`. Returns the initialised header and the new
`event_sequence`. -/
def evel_init_header (env : EVEL_ENVIRONMENT) (event_sequence : Int) (tv : timeval)
    (header : EVENT_HEADER) (eventname : Option String) : EVENT_HEADER × Int :=
  let scratchpad := snprintf_d env.EVEL_MAX_STRING_LEN event_sequence
  let last_epoch_microsec :=
    to_ull (wrap_long (tv.tv_usec + wrap_long (1000000 * tv.tv_sec)))
  ({ header with
      event_domain := EVEL_EVENT_DOMAINS.EVEL_DOMAIN_HEARTBEAT
      event_id := some scratchpad
      event_name :=
        match eventname with
        | none => some env.functional_role
        | some name => some name
      last_epoch_microsec := last_epoch_microsec
      priority := EVEL_EVENT_PRIORITIES.EVEL_PRIORITY_NORMAL
      reporting_entity_name := some env.openstack_vm_name
      source_name := some env.openstack_vm_name
      sequence := event_sequence
      start_epoch_microsec := last_epoch_microsec
      major_version := env.EVEL_HEADER_MAJOR_VERSION
      minor_version := env.EVEL_HEADER_MINOR_VERSION
      event_type := evel_init_option_string header.event_type
      nfcnaming_code := evel_init_option_string header.nfcnaming_code
      nfnaming_code := evel_init_option_string header.nfnaming_code
      reporting_entity_id :=
        evel_force_option_string header.reporting_entity_id env.openstack_vm_uuid
      source_id := evel_force_option_string header.source_id env.openstack_vm_uuid
      internal_field := evel_init_option_intheader header.internal_field },
   wrap_int (event_sequence + 1))

/-- One call of `evel_init_header`: the time read, the header storage handed
in and the event name argument. -/
structure INIT_CALL where
  tv : timeval
  header : EVENT_HEADER
  eventname : Option String

/-- Consecutive calls of `evel_init_header`, nothing else touching
`event_sequence` in between: the headers in creation order and the final
counter. -/
def consecutive_init_headers (env : EVEL_ENVIRONMENT) :
    Int → List INIT_CALL → List EVENT_HEADER × Int
  | event_sequence, [] => ([], event_sequence)
  | event_sequence, call :: rest =>
    let first := evel_init_header env event_sequence call.tv call.header call.eventname
    let others := consecutive_init_headers env first.2 rest
    (first.1 :: others.1, others.2)

/-- A concrete environment for evaluating the definitions. -/
def sample_env : EVEL_ENVIRONMENT :=
  { EVEL_MAX_STRING_LEN := 4096
    EVEL_HEADER_MAJOR_VERSION := 3
    EVEL_HEADER_MINOR_VERSION := 0
    functional_role := "vFirewall"
    openstack_vm_name := "vm-1"
    openstack_vm_uuid := "uuid-1"
    evel_event_domain := fun d =>
      match d with
      | EVEL_EVENT_DOMAINS.EVEL_DOMAIN_HEARTBEAT => some "heartbeat"
      | _ => some "other"
    evel_event_priority := fun p =>
      match p with
      | EVEL_EVENT_PRIORITIES.EVEL_PRIORITY_NORMAL => some "Normal"
      | _ => some "Low" }

/-- A concrete time reading. -/
def sample_tv : timeval := { tv_sec := 1700000000, tv_usec := 250000 }

/-- A concrete call of `evel_init_header` on zeroed storage, without a name. -/
def sample_call : INIT_CALL :=
  { tv := sample_tv, header := EVENT_HEADER_zeroed, eventname := none }

/-! ## The heartbeat factory and the header mutators -/

/-- The function `evel_new_heartbeat`. `malloc_ok` tells whether `malloc`
returned storage; the result is the new header (`none` for NULL) and the new
`event_sequence`. -/
def evel_new_heartbeat (env : EVEL_ENVIRONMENT) (event_sequence : Int) (tv : timeval)
    (malloc_ok : Bool) : Option EVENT_HEADER × Int :=
  if malloc_ok then
    let r := evel_init_header env event_sequence tv EVENT_HEADER_zeroed (some "Heartbeat")
    (some { r.1 with
        event_type := evel_force_option_string r.1.event_type "Autonomous heartbeat" },
     r.2)
  else
    (none, event_sequence)

/-- The function `evel_header_type_set`. -/
def evel_header_type_set (header : EVENT_HEADER) (type : Option String) :
    Option EVENT_HEADER :=
  match type with
  | none => none
  | some type =>
    some { header with
      event_type := evel_set_option_string header.event_type type "Event Type" }

/-- The function `evel_start_epoch_set`. -/
def evel_start_epoch_set (header : EVENT_HEADER) (start_epoch_microsec : Nat) :
    EVENT_HEADER :=
  { header with start_epoch_microsec := start_epoch_microsec }

/-- The function `evel_last_epoch_set`. -/
def evel_last_epoch_set (header : EVENT_HEADER) (last_epoch_microsec : Nat) :
    EVENT_HEADER :=
  { header with last_epoch_microsec := last_epoch_microsec }

/-- The function `evel_nfcnamingcode_set`. -/
def evel_nfcnamingcode_set (header : EVENT_HEADER) (nfcnam : Option String) :
    Option EVENT_HEADER :=
  match nfcnam with
  | none => none
  | some nfcnam =>
    some { header with
      nfcnaming_code :=
        evel_set_option_string header.nfcnaming_code nfcnam "NFC Naming Code" }

/-- The function `evel_nfnamingcode_set`. -/
def evel_nfnamingcode_set (header : EVENT_HEADER) (nfnam : Option String) :
    Option EVENT_HEADER :=
  match nfnam with
  | none => none
  | some nfnam =>
    some { header with
      nfnaming_code :=
        evel_set_option_string header.nfnaming_code nfnam "NF Naming Code" }

/-- The function `evel_reporting_entity_name_set`: the old string is freed and
a copy of the new one is stored. -/
def evel_reporting_entity_name_set (header : EVENT_HEADER) (entity_name : Option String) :
    Option EVENT_HEADER :=
  match entity_name with
  | none => none
  | some entity_name =>
    match header.reporting_entity_name with
    | none => none
    | some _ => some { header with reporting_entity_name := some entity_name }

/-- The function `evel_reporting_entity_id_set`: the option is freed and then
forced to the new value. -/
def evel_reporting_entity_id_set (header : EVENT_HEADER) (entity_id : Option String) :
    Option EVENT_HEADER :=
  match entity_id with
  | none => none
  | some entity_id =>
    let freed := evel_free_option_string header.reporting_entity_id
    some { header with reporting_entity_id := evel_force_option_string freed entity_id }

/-! ## The JSON buffer -/

/-- Modelled from the spec: `EVEL_THROTTLE_SPEC` is declared outside
`evel_event.c`. "ThrottleSpec ... exposes a predicate: is this field/this whole
nested object suppressed for this domain right now",
`ThrottleSpec.is_suppressed(field_or_section_name) -> bool`. -/
structure EVEL_THROTTLE_SPEC where
  is_suppressed : String → Bool

/-- A throttle specification that suppresses nothing. -/
def throttle_nothing : EVEL_THROTTLE_SPEC := { is_suppressed := fun _ => false }

/-- The values the typed key/value emitters take: a string (possibly NULL), an
unsigned 64-bit integer, a signed integer, and a major/minor version pair. -/
inductive EVEL_JSON_VALUE where
  | string (value : Option String)
  | ull (value : Nat)
  | int (value : Int)
  | version (major minor : Int)
deriving DecidableEq, Repr

/-- One emit operation applied to a JSON buffer. -/
inductive EVEL_JSON_EMIT where
  | open_object
  | open_named_object (key : String)
  | close_object
  | kv (key : String) (value : EVEL_JSON_VALUE)
deriving DecidableEq, Repr

/-- Modelled from the spec: `EVEL_JSON_BUFFER` is declared outside
`evel_event.c`. "holds the output byte region, its capacity, current write
offset, a nesting-depth counter ..., and a reference to the active throttle
specification". The output is kept in `json` as the sequence of emit
operations that produced it, in the order they were applied; which operations
are applied does not depend on how many of their bytes fit the capacity. -/
structure EVEL_JSON_BUFFER where
  json : List EVEL_JSON_EMIT
  max_size : Int
  depth : Int
  throttle_spec : EVEL_THROTTLE_SPEC

/-- Modelled from the spec: `evel_json_buffer_init` is defined outside
`evel_event.c`. A fresh buffer of the given capacity: nothing emitted, depth 0,
the given throttle specification attached. -/
def evel_json_buffer_init (max_size : Int) (throttle_spec : EVEL_THROTTLE_SPEC) :
    EVEL_JSON_BUFFER :=
  { json := [], max_size := max_size, depth := 0, throttle_spec := throttle_spec }

/-- Modelled from the spec: `evel_json_open_object` is defined outside
`evel_event.c`. "`open_object`/`open_named_object` push a depth level". -/
def evel_json_open_object (jbuf : EVEL_JSON_BUFFER) : EVEL_JSON_BUFFER :=
  { jbuf with json := jbuf.json ++ [EVEL_JSON_EMIT.open_object], depth := jbuf.depth + 1 }

/-- Modelled from the spec: `evel_json_open_named_object` is defined outside
`evel_event.c`. "`open_object`/`open_named_object` push a depth level". -/
def evel_json_open_named_object (jbuf : EVEL_JSON_BUFFER) (key : String) :
    EVEL_JSON_BUFFER :=
  { jbuf with
    json := jbuf.json ++ [EVEL_JSON_EMIT.open_named_object key], depth := jbuf.depth + 1 }

/-- Modelled from the spec: `evel_json_close_object` is defined outside
`evel_event.c`. "`close_object` pops a level." -/
def evel_json_close_object (jbuf : EVEL_JSON_BUFFER) : EVEL_JSON_BUFFER :=
  { jbuf with json := jbuf.json ++ [EVEL_JSON_EMIT.close_object], depth := jbuf.depth - 1 }

/-- Modelled from the spec: `evel_enc_kv_string` is defined outside
`evel_event.c`. The typed key/value emitter for strings. -/
def evel_enc_kv_string (jbuf : EVEL_JSON_BUFFER) (key : String) (value : Option String) :
    EVEL_JSON_BUFFER :=
  { jbuf with json := jbuf.json ++ [EVEL_JSON_EMIT.kv key (EVEL_JSON_VALUE.string value)] }

/-- Modelled from the spec: `evel_enc_kv_ull` is defined outside
`evel_event.c`. The typed key/value emitter for unsigned 64-bit integers. -/
def evel_enc_kv_ull (jbuf : EVEL_JSON_BUFFER) (key : String) (value : Nat) :
    EVEL_JSON_BUFFER :=
  { jbuf with json := jbuf.json ++ [EVEL_JSON_EMIT.kv key (EVEL_JSON_VALUE.ull value)] }

/-- Modelled from the spec: `evel_enc_kv_int` is defined outside
`evel_event.c`. The typed key/value emitter for signed integers. -/
def evel_enc_kv_int (jbuf : EVEL_JSON_BUFFER) (key : String) (value : Int) :
    EVEL_JSON_BUFFER :=
  { jbuf with json := jbuf.json ++ [EVEL_JSON_EMIT.kv key (EVEL_JSON_VALUE.int value)] }

/-- Modelled from the spec: `evel_enc_version` is defined outside
`evel_event.c`. The emitter for the two-part version. -/
def evel_enc_version (jbuf : EVEL_JSON_BUFFER) (key : String) (major minor : Int) :
    EVEL_JSON_BUFFER :=
  { jbuf with
    json := jbuf.json ++ [EVEL_JSON_EMIT.kv key (EVEL_JSON_VALUE.version major minor)] }

/-- Modelled from the spec: `evel_enc_kv_opt_string` is defined outside
`evel_event.c`. "`encode(buffer, key)`: emits `"key": value` into the buffer
iff `is_set`; otherwise emits nothing", and the throttle specification, which
the buffer carries, is consulted "before emitting every optional ... field",
the encoders "skipping suppressed or unset fields". The header encoder itself
never looks at the throttle specification, so the check sits here. -/
def evel_enc_kv_opt_string (jbuf : EVEL_JSON_BUFFER) (key : String)
    (option : EVEL_OPTION_STRING) : EVEL_JSON_BUFFER :=
  if option.is_set then
    if jbuf.throttle_spec.is_suppressed key then jbuf
    else evel_enc_kv_string jbuf key option.value
  else jbuf

/-- The function `evel_json_encode_header`; `none` when the assertion
`jbuf->max_size > 0` fails (the pointer assertions hold by typing). -/
def evel_json_encode_header (env : EVEL_ENVIRONMENT) (jbuf : EVEL_JSON_BUFFER)
    (event : EVENT_HEADER) : Option EVEL_JSON_BUFFER :=
  if jbuf.max_size ≤ 0 then none
  else
    let domain := env.evel_event_domain event.event_domain
    let priority := env.evel_event_priority event.priority
    let jbuf := evel_json_open_named_object jbuf "commonEventHeader"
    let jbuf := evel_enc_kv_string jbuf "domain" domain
    let jbuf := evel_enc_kv_string jbuf "eventId" event.event_id
    let jbuf := evel_enc_kv_string jbuf "eventName" event.event_name
    let jbuf := evel_enc_kv_ull jbuf "lastEpochMicrosec" event.last_epoch_microsec
    let jbuf := evel_enc_kv_string jbuf "priority" priority
    let jbuf := evel_enc_kv_string jbuf "reportingEntityName" event.reporting_entity_name
    let jbuf := evel_enc_kv_int jbuf "sequence" event.sequence
    let jbuf := evel_enc_kv_string jbuf "sourceName" event.source_name
    let jbuf := evel_enc_kv_ull jbuf "startEpochMicrosec" event.start_epoch_microsec
    let jbuf := evel_enc_version jbuf "version" event.major_version event.minor_version
    let jbuf := evel_enc_kv_opt_string jbuf "eventType" event.event_type
    let jbuf := evel_enc_kv_opt_string jbuf "reportingEntityId" event.reporting_entity_id
    let jbuf := evel_enc_kv_opt_string jbuf "sourceId" event.source_id
    let jbuf := evel_enc_kv_opt_string jbuf "nfcNamingCode" event.nfcnaming_code
    let jbuf := evel_enc_kv_opt_string jbuf "nfNamingCode" event.nfnaming_code
    some (evel_json_close_object jbuf)

/-! ## Reading the output of the encoder -/

/-- The emit operations applied between two states of one buffer. -/
def emitted_between (before after : EVEL_JSON_BUFFER) : List EVEL_JSON_EMIT :=
  after.json.drop before.json.length

/-- The key of a key/value emit operation. -/
def emit_key : EVEL_JSON_EMIT → Option String
  | EVEL_JSON_EMIT.kv key _ => some key
  | _ => none

/-- The keys of the key/value operations in a list of emit operations, in
order. -/
def emitted_keys (ops : List EVEL_JSON_EMIT) : List String :=
  ops.filterMap emit_key

/-- The ten mandatory keys of the common event header, in wire order. -/
def header_mandatory_keys : List String :=
  ["domain", "eventId", "eventName", "lastEpochMicrosec", "priority",
   "reportingEntityName", "sequence", "sourceName", "startEpochMicrosec", "version"]

/-- The five optional keys of the common event header with the option field
each one encodes, in wire order. -/
def header_optional_fields (event : EVENT_HEADER) : List (String × EVEL_OPTION_STRING) :=
  [("eventType", event.event_type), ("reportingEntityId", event.reporting_entity_id),
   ("sourceId", event.source_id), ("nfcNamingCode", event.nfcnaming_code),
   ("nfNamingCode", event.nfnaming_code)]

/-- The five optional keys of the common event header, in wire order. -/
def header_optional_keys : List String :=
  ["eventType", "reportingEntityId", "sourceId", "nfcNamingCode", "nfNamingCode"]

/-- The ten mandatory members of the common event header with the values the
encoder hands to the emitters, in wire order. -/
def header_mandatory_members (env : EVEL_ENVIRONMENT) (event : EVENT_HEADER) :
    List (String × EVEL_JSON_VALUE) :=
  [("domain", EVEL_JSON_VALUE.string (env.evel_event_domain event.event_domain)),
   ("eventId", EVEL_JSON_VALUE.string event.event_id),
   ("eventName", EVEL_JSON_VALUE.string event.event_name),
   ("lastEpochMicrosec", EVEL_JSON_VALUE.ull event.last_epoch_microsec),
   ("priority", EVEL_JSON_VALUE.string (env.evel_event_priority event.priority)),
   ("reportingEntityName", EVEL_JSON_VALUE.string event.reporting_entity_name),
   ("sequence", EVEL_JSON_VALUE.int event.sequence),
   ("sourceName", EVEL_JSON_VALUE.string event.source_name),
   ("startEpochMicrosec", EVEL_JSON_VALUE.ull event.start_epoch_microsec),
   ("version", EVEL_JSON_VALUE.version event.major_version event.minor_version)]

/-- The optional fields of a header that are set and that a throttle
specification does not suppress, in wire order. -/
def header_optional_present (spec : EVEL_THROTTLE_SPEC) (event : EVENT_HEADER) :
    List (String × EVEL_OPTION_STRING) :=
  (header_optional_fields event).filter
    (fun field => field.2.is_set && !spec.is_suppressed field.1)

/-- The key/value operation for a member of an object. -/
def member_emit (member : String × EVEL_JSON_VALUE) : EVEL_JSON_EMIT :=
  EVEL_JSON_EMIT.kv member.1 member.2

/-- The member an optional string field contributes when it is emitted. -/
def option_member (field : String × EVEL_OPTION_STRING) : String × EVEL_JSON_VALUE :=
  (field.1, EVEL_JSON_VALUE.string field.2.value)

/-- A throttle specification that suppresses the one key `eventType`. -/
def throttle_event_type : EVEL_THROTTLE_SPEC :=
  { is_suppressed := fun key => key == "eventType" }

/-- A buffer in the state in which `evel_json_encode_event` hands it to the
header encoder: initialised, top-level object and `event` object opened. -/
def sample_jbuf (throttle_spec : EVEL_THROTTLE_SPEC) : EVEL_JSON_BUFFER :=
  evel_json_open_named_object
    (evel_json_open_object (evel_json_buffer_init 4096 throttle_spec)) "event"

/-- A concrete initialised header: the first one created in a process. -/
def sample_header : EVENT_HEADER :=
  (evel_init_header sample_env event_sequence_initial sample_tv EVENT_HEADER_zeroed none).1

/-- A concrete heartbeat: the first one created in a process. -/
def sample_heartbeat : EVENT_HEADER :=
  { (evel_init_header sample_env event_sequence_initial sample_tv EVENT_HEADER_zeroed
        (some "Heartbeat")).1 with
    event_type := { is_set := true, value := some "Autonomous heartbeat" } }

/-! ## The domain dispatcher -/

/-- The encoders `evel_json_encode_event` can hand an event to: the header
encoder of this file and the body encoders of the other domains, which are
defined elsewhere. `evel_json_encode_voice_quality` is the encoder of the voice
quality domain; the switch of `evel_json_encode_event` does not name it. -/
inductive EVEL_ENCODER where
  | evel_json_encode_header
  | evel_json_encode_fault
  | evel_json_encode_measurement
  | evel_json_encode_mobile_flow
  | evel_json_encode_report
  | evel_json_encode_hrtbt_field
  | evel_json_encode_signaling
  | evel_json_encode_state_change
  | evel_json_encode_syslog
  | evel_json_encode_other
  | evel_json_encode_voice_quality
deriving DecidableEq, Repr

/-- The assertion on which a call of `evel_json_encode_event` aborts:
`assert(0)` in the `EVEL_DOMAIN_INTERNAL`/`default` arm of the switch, an
assertion inside the encoder the switch called, or the final
`assert(jbuf->depth == 0)`. -/
inductive EVEL_ABORT where
  | unexpected_domain
  | encoder_assertion
  | depth_not_zero
deriving DecidableEq, Repr

/-- The storage an `EVENT_HEADER *` handed to `evel_json_encode_event` points
to: the header and, behind it, the domain-specific part that the casts
`(EVENT_FAULT *)event` and the like reach. -/
structure EVEL_EVENT (β : Type) where
  header : EVENT_HEADER
  body : β

/-- What `evel_json_encode_event` takes from outside `evel_event.c`.

Modelled from the spec: `evel_get_throttle_spec` is `throttle_provider.spec_for(domain)
-> ThrottleSpec`. The body encoders are "external collaborators", each "a
mechanical instance of the same field-encoding pattern": `body_encoder` gives
the emit operations an encoder applies to the buffer for an event under a
throttle specification, `none` when an assertion inside it fails. `emit_text`
is the text the buffer engine writes for one emit operation; its first
argument tells whether the operation is the first sibling at its depth, so
that no comma separator is due. -/
structure EVEL_COLLABORATORS (β : Type) where
  evel_get_throttle_spec : EVEL_EVENT_DOMAINS → EVEL_THROTTLE_SPEC
  body_encoder : EVEL_ENCODER → EVEL_THROTTLE_SPEC → EVENT_HEADER → β →
    Option (List EVEL_JSON_EMIT)
  emit_text : Bool → EVEL_JSON_EMIT → List Char

/-- One emit operation applied to a buffer through the emitter it names. -/
def evel_json_emit (jbuf : EVEL_JSON_BUFFER) : EVEL_JSON_EMIT → EVEL_JSON_BUFFER
  | EVEL_JSON_EMIT.open_object => evel_json_open_object jbuf
  | EVEL_JSON_EMIT.open_named_object key => evel_json_open_named_object jbuf key
  | EVEL_JSON_EMIT.close_object => evel_json_close_object jbuf
  | EVEL_JSON_EMIT.kv key (EVEL_JSON_VALUE.string value) => evel_enc_kv_string jbuf key value
  | EVEL_JSON_EMIT.kv key (EVEL_JSON_VALUE.ull value) => evel_enc_kv_ull jbuf key value
  | EVEL_JSON_EMIT.kv key (EVEL_JSON_VALUE.int value) => evel_enc_kv_int jbuf key value
  | EVEL_JSON_EMIT.kv key (EVEL_JSON_VALUE.version major minor) =>
    evel_enc_version jbuf key major minor

/-- The switch of `evel_json_encode_event`: the encoder each case label calls,
`none` for the `EVEL_DOMAIN_INTERNAL`/`default` arm, which asserts. -/
def evel_json_encode_event_dispatch : EVEL_EVENT_DOMAINS → Option EVEL_ENCODER
  | EVEL_EVENT_DOMAINS.EVEL_DOMAIN_HEARTBEAT => some EVEL_ENCODER.evel_json_encode_header
  | EVEL_EVENT_DOMAINS.EVEL_DOMAIN_FAULT => some EVEL_ENCODER.evel_json_encode_fault
  | EVEL_EVENT_DOMAINS.EVEL_DOMAIN_MEASUREMENT =>
    some EVEL_ENCODER.evel_json_encode_measurement
  | EVEL_EVENT_DOMAINS.EVEL_DOMAIN_MOBILE_FLOW =>
    some EVEL_ENCODER.evel_json_encode_mobile_flow
  | EVEL_EVENT_DOMAINS.EVEL_DOMAIN_REPORT => some EVEL_ENCODER.evel_json_encode_report
  | EVEL_EVENT_DOMAINS.EVEL_DOMAIN_HEARTBEAT_FIELD =>
    some EVEL_ENCODER.evel_json_encode_hrtbt_field
  | EVEL_EVENT_DOMAINS.EVEL_DOMAIN_SIPSIGNALING =>
    some EVEL_ENCODER.evel_json_encode_signaling
  | EVEL_EVENT_DOMAINS.EVEL_DOMAIN_STATE_CHANGE =>
    some EVEL_ENCODER.evel_json_encode_state_change
  | EVEL_EVENT_DOMAINS.EVEL_DOMAIN_SYSLOG => some EVEL_ENCODER.evel_json_encode_syslog
  | EVEL_EVENT_DOMAINS.EVEL_DOMAIN_OTHER => some EVEL_ENCODER.evel_json_encode_other
  | EVEL_EVENT_DOMAINS.EVEL_DOMAIN_VOICE_QUALITY => some EVEL_ENCODER.evel_json_encode_other
  | EVEL_EVENT_DOMAINS.EVEL_DOMAIN_INTERNAL => none
  | EVEL_EVENT_DOMAINS.out_of_range _ => none

/-- The call of the encoder a case of the switch names: the header encoder of
this file, or a body encoder acting on the buffer through the emitters. `none`
when an assertion inside the encoder fails. -/
def evel_json_call_encoder {β : Type} (env : EVEL_ENVIRONMENT) (ext : EVEL_COLLABORATORS β)
    (encoder : EVEL_ENCODER) (jbuf : EVEL_JSON_BUFFER) (event : EVEL_EVENT β) :
    Option EVEL_JSON_BUFFER :=
  match encoder with
  | EVEL_ENCODER.evel_json_encode_header => evel_json_encode_header env jbuf event.header
  | body =>
    (ext.body_encoder body jbuf.throttle_spec event.header event.body).map
      (fun ops => ops.foldl evel_json_emit jbuf)

/-- The function `evel_json_encode_event` up to its `return`: the local
`json_buffer` as it stands when the function returns, or the assertion on
which it aborts. -/
def evel_json_encode_event_jbuf {β : Type} (env : EVEL_ENVIRONMENT)
    (ext : EVEL_COLLABORATORS β) (max_size : Int) (event : EVEL_EVENT β) :
    Except EVEL_ABORT EVEL_JSON_BUFFER :=
  let throttle_spec := ext.evel_get_throttle_spec event.header.event_domain
  let jbuf := evel_json_buffer_init max_size throttle_spec
  let jbuf := evel_json_open_object jbuf
  let jbuf := evel_json_open_named_object jbuf "event"
  match evel_json_encode_event_dispatch event.header.event_domain with
  | none => Except.error EVEL_ABORT.unexpected_domain
  | some encoder =>
    match evel_json_call_encoder env ext encoder jbuf event with
    | none => Except.error EVEL_ABORT.encoder_assertion
    | some jbuf =>
      let jbuf := evel_json_close_object jbuf
      let jbuf := evel_json_close_object jbuf
      if jbuf.depth = 0 then Except.ok jbuf else Except.error EVEL_ABORT.depth_not_zero

/-! ## The bytes of a buffer -/

/-- Whether the next emit operation is the first sibling at its depth: nothing
was emitted before it, or the operation before it opened an object. -/
def first_sibling : Option EVEL_JSON_EMIT → Bool
  | none => true
  | some EVEL_JSON_EMIT.open_object => true
  | some (EVEL_JSON_EMIT.open_named_object _) => true
  | some _ => false

/-- Modelled from the spec: one write of the buffer engine into a region of
capacity `max_size`. "if the remaining capacity is insufficient, truncates the
write rather than writing out of bounds". -/
def json_write (max_size : Int) (region : List Char) (text : List Char) : List Char :=
  region ++ text.take (max_size.toNat - region.length)

/-- Modelled from the spec: the bytes in the output region after the emit
operations `ops` are written one after the other, each through `json_write`,
starting from the bytes `region` and the last operation `previous`. -/
def json_region (emit_text : Bool → EVEL_JSON_EMIT → List Char) (max_size : Int) :
    Option EVEL_JSON_EMIT → List Char → List EVEL_JSON_EMIT → List Char
  | _, region, [] => region
  | previous, region, op :: ops =>
    json_region emit_text max_size (some op)
      (json_write max_size region (emit_text (first_sibling previous) op)) ops

/-- The whole text of a sequence of emit operations, as an unbounded buffer
would hold it. -/
def json_document (emit_text : Bool → EVEL_JSON_EMIT → List Char) :
    Option EVEL_JSON_EMIT → List EVEL_JSON_EMIT → List Char
  | _, [] => []
  | previous, op :: ops =>
    emit_text (first_sibling previous) op ++ json_document emit_text (some op) ops

/-- The bytes a buffer holds in its output region. -/
def evel_json_buffer_bytes (emit_text : Bool → EVEL_JSON_EMIT → List Char)
    (jbuf : EVEL_JSON_BUFFER) : List Char :=
  json_region emit_text jbuf.max_size none [] jbuf.json

/-- The write offset `jbuf->offset` of a buffer: the number of bytes it holds. -/
def evel_json_buffer_offset (emit_text : Bool → EVEL_JSON_EMIT → List Char)
    (jbuf : EVEL_JSON_BUFFER) : Int :=
  (evel_json_buffer_bytes emit_text jbuf).length

/-- The function `evel_json_encode_event`: the bytes it leaves in `json` and
the byte count `jbuf->offset` it returns, or the assertion on which it
aborts. -/
def evel_json_encode_event {β : Type} (env : EVEL_ENVIRONMENT) (ext : EVEL_COLLABORATORS β)
    (max_size : Int) (event : EVEL_EVENT β) : Except EVEL_ABORT (List Char × Int) :=
  match evel_json_encode_event_jbuf env ext max_size event with
  | Except.error abort => Except.error abort
  | Except.ok jbuf =>
    Except.ok (evel_json_buffer_bytes ext.emit_text jbuf,
      evel_json_buffer_offset ext.emit_text jbuf)

/-- The memory a call of `evel_json_encode_event` can reach: the static
`event_sequence` and the event. -/
structure EVEL_MEMORY (β : Type) where
  event_sequence : Int
  event : EVEL_EVENT β

/-- A call of `evel_json_encode_event` as a step on the memory: its result and
the memory after it. The function and the header encoder assign neither to
`event_sequence` nor through `event`, so the memory is handed on as it is. -/
def evel_json_encode_event_step {β : Type} (env : EVEL_ENVIRONMENT)
    (ext : EVEL_COLLABORATORS β) (max_size : Int) (memory : EVEL_MEMORY β) :
    Except EVEL_ABORT (List Char × Int) × EVEL_MEMORY β :=
  (evel_json_encode_event env ext max_size memory.event, memory)

/-- The change of nesting depth one emit operation makes. -/
def emit_depth : EVEL_JSON_EMIT → Int
  | EVEL_JSON_EMIT.open_object => 1
  | EVEL_JSON_EMIT.open_named_object _ => 1
  | EVEL_JSON_EMIT.close_object => -1
  | EVEL_JSON_EMIT.kv _ _ => 0

/-- The change of nesting depth a sequence of emit operations makes. -/
def depth_change (ops : List EVEL_JSON_EMIT) : Int :=
  (ops.map emit_depth).sum

/-- The emit operations of one encoded header: the opening of
`commonEventHeader`, the mandatory members, the optional members that are set
and not suppressed, and the closing. -/
def header_emits (env : EVEL_ENVIRONMENT) (spec : EVEL_THROTTLE_SPEC)
    (header : EVENT_HEADER) : List EVEL_JSON_EMIT :=
  EVEL_JSON_EMIT.open_named_object "commonEventHeader" ::
    ((header_mandatory_members env header).map member_emit ++
      ((header_optional_present spec header).map
        (fun field => member_emit (option_member field)) ++
      [EVEL_JSON_EMIT.close_object]))

/-- The encoder that belongs to each known domain other than the internal
one, as the specification routes them: the header encoder for heartbeats and
for every other domain the body encoder of that domain. -/
def domain_encoder : EVEL_EVENT_DOMAINS → Option EVEL_ENCODER
  | EVEL_EVENT_DOMAINS.EVEL_DOMAIN_HEARTBEAT => some EVEL_ENCODER.evel_json_encode_header
  | EVEL_EVENT_DOMAINS.EVEL_DOMAIN_FAULT => some EVEL_ENCODER.evel_json_encode_fault
  | EVEL_EVENT_DOMAINS.EVEL_DOMAIN_MEASUREMENT =>
    some EVEL_ENCODER.evel_json_encode_measurement
  | EVEL_EVENT_DOMAINS.EVEL_DOMAIN_MOBILE_FLOW =>
    some EVEL_ENCODER.evel_json_encode_mobile_flow
  | EVEL_EVENT_DOMAINS.EVEL_DOMAIN_REPORT => some EVEL_ENCODER.evel_json_encode_report
  | EVEL_EVENT_DOMAINS.EVEL_DOMAIN_HEARTBEAT_FIELD =>
    some EVEL_ENCODER.evel_json_encode_hrtbt_field
  | EVEL_EVENT_DOMAINS.EVEL_DOMAIN_SIPSIGNALING =>
    some EVEL_ENCODER.evel_json_encode_signaling
  | EVEL_EVENT_DOMAINS.EVEL_DOMAIN_STATE_CHANGE =>
    some EVEL_ENCODER.evel_json_encode_state_change
  | EVEL_EVENT_DOMAINS.EVEL_DOMAIN_SYSLOG => some EVEL_ENCODER.evel_json_encode_syslog
  | EVEL_EVENT_DOMAINS.EVEL_DOMAIN_OTHER => some EVEL_ENCODER.evel_json_encode_other
  | EVEL_EVENT_DOMAINS.EVEL_DOMAIN_VOICE_QUALITY =>
    some EVEL_ENCODER.evel_json_encode_voice_quality
  | EVEL_EVENT_DOMAINS.EVEL_DOMAIN_INTERNAL => none
  | EVEL_EVENT_DOMAINS.out_of_range _ => none

/-- The known domains other than the internal one. -/
def known_event_domains : List EVEL_EVENT_DOMAINS :=
  [EVEL_EVENT_DOMAINS.EVEL_DOMAIN_HEARTBEAT, EVEL_EVENT_DOMAINS.EVEL_DOMAIN_FAULT,
   EVEL_EVENT_DOMAINS.EVEL_DOMAIN_MEASUREMENT, EVEL_EVENT_DOMAINS.EVEL_DOMAIN_MOBILE_FLOW,
   EVEL_EVENT_DOMAINS.EVEL_DOMAIN_REPORT, EVEL_EVENT_DOMAINS.EVEL_DOMAIN_HEARTBEAT_FIELD,
   EVEL_EVENT_DOMAINS.EVEL_DOMAIN_SIPSIGNALING, EVEL_EVENT_DOMAINS.EVEL_DOMAIN_STATE_CHANGE,
   EVEL_EVENT_DOMAINS.EVEL_DOMAIN_SYSLOG, EVEL_EVENT_DOMAINS.EVEL_DOMAIN_OTHER,
   EVEL_EVENT_DOMAINS.EVEL_DOMAIN_VOICE_QUALITY]

/-- The emit operations the encoder `encoder` applies to a buffer of capacity
`max_size` and throttle specification `spec`, `none` when an assertion inside
the encoder fails: for the header encoder the operations of one encoded
header, given `max_size > 0`; for a body encoder what `body_encoder` tells. -/
def encoder_emits {β : Type} (env : EVEL_ENVIRONMENT) (ext : EVEL_COLLABORATORS β)
    (max_size : Int) (encoder : EVEL_ENCODER) (spec : EVEL_THROTTLE_SPEC)
    (event : EVEL_EVENT β) : Option (List EVEL_JSON_EMIT) :=
  match encoder with
  | EVEL_ENCODER.evel_json_encode_header =>
    if max_size ≤ 0 then none else some (header_emits env spec event.header)
  | body => ext.body_encoder body spec event.header event.body

/-! ## The vendor field -/

/-- The type `VENDOR_VNFNAME_FIELD`, with the fields `evel_event.c` reads or
writes. -/
structure VENDOR_VNFNAME_FIELD where
  vendorname : Option String
  vfmodule : EVEL_OPTION_STRING
  vnfname : EVEL_OPTION_STRING
deriving DecidableEq, Repr

/-- The function `evel_init_vendor_field`. -/
def evel_init_vendor_field (vfield : VENDOR_VNFNAME_FIELD) (vendor_name : Option String) :
    Option VENDOR_VNFNAME_FIELD :=
  match vendor_name with
  | none => none
  | some vendor_name =>
    some { vfield with
      vendorname := some vendor_name
      vfmodule := evel_init_option_string vfield.vfmodule
      vnfname := evel_init_option_string vfield.vnfname }

/-- The function `evel_vendor_field_module_set`. -/
def evel_vendor_field_module_set (vfield : VENDOR_VNFNAME_FIELD)
    (module_name : Option String) : Option VENDOR_VNFNAME_FIELD :=
  match module_name with
  | none => none
  | some module_name =>
    some { vfield with
      vfmodule := evel_set_option_string vfield.vfmodule module_name "Module name set" }

/-- The function `evel_vendor_field_vnfname_set`. -/
def evel_vendor_field_vnfname_set (vfield : VENDOR_VNFNAME_FIELD)
    (vnfname : Option String) : Option VENDOR_VNFNAME_FIELD :=
  match vnfname with
  | none => none
  | some vnfname =>
    some { vfield with
      vnfname := evel_set_option_string vfield.vnfname vnfname
        "Virtual Network Function name set" }

/-! ## Operations on a header in a running process -/

/-- The operations that can follow the initialisation of a header `h`: the
seven mutators applied to `h`, the encoding of `h`, the override of the
sequence counter and the initialisation of another header. -/
inductive HEADER_OPERATION where
  | header_type_set (type : Option String)
  | start_epoch_set (start_epoch_microsec : Nat)
  | last_epoch_set (last_epoch_microsec : Nat)
  | nfcnamingcode_set (nfcnam : Option String)
  | nfnamingcode_set (nfnam : Option String)
  | reporting_entity_name_set (entity_name : Option String)
  | reporting_entity_id_set (entity_id : Option String)
  | json_encode_header (jbuf : EVEL_JSON_BUFFER)
  | set_next_event_sequence (sequence : Int)
  | init_other_header (call : INIT_CALL)

/-- One operation applied to the pair of the static `event_sequence` and the
header `h`; `none` when an assertion of the operation fails. -/
def header_operation_step (env : EVEL_ENVIRONMENT) (state : Int × EVENT_HEADER) :
    HEADER_OPERATION → Option (Int × EVENT_HEADER)
  | HEADER_OPERATION.header_type_set type =>
    (evel_header_type_set state.2 type).map (fun h => (state.1, h))
  | HEADER_OPERATION.start_epoch_set t => some (state.1, evel_start_epoch_set state.2 t)
  | HEADER_OPERATION.last_epoch_set t => some (state.1, evel_last_epoch_set state.2 t)
  | HEADER_OPERATION.nfcnamingcode_set nfcnam =>
    (evel_nfcnamingcode_set state.2 nfcnam).map (fun h => (state.1, h))
  | HEADER_OPERATION.nfnamingcode_set nfnam =>
    (evel_nfnamingcode_set state.2 nfnam).map (fun h => (state.1, h))
  | HEADER_OPERATION.reporting_entity_name_set entity_name =>
    (evel_reporting_entity_name_set state.2 entity_name).map (fun h => (state.1, h))
  | HEADER_OPERATION.reporting_entity_id_set entity_id =>
    (evel_reporting_entity_id_set state.2 entity_id).map (fun h => (state.1, h))
  | HEADER_OPERATION.json_encode_header jbuf =>
    (evel_json_encode_header env jbuf state.2).map (fun _ => state)
  | HEADER_OPERATION.set_next_event_sequence sequence =>
    some (evel_set_next_event_sequence state.1 sequence, state.2)
  | HEADER_OPERATION.init_other_header call =>
    some ((evel_init_header env state.1 call.tv call.header call.eventname).2, state.2)

/-- A sequence of operations applied in order. -/
def header_operations_run (env : EVEL_ENVIRONMENT) :
    Int × EVENT_HEADER → List HEADER_OPERATION → Option (Int × EVENT_HEADER)
  | state, [] => some state
  | state, op :: ops =>
    match header_operation_step env state op with
    | none => none
    | some next => header_operations_run env next ops

/-! ## Concrete collaborators and events -/

/-- A string between double quotes. -/
def sample_quote (s : String) : List Char :=
  Char.ofNat 34 :: (s.data ++ [Char.ofNat 34])

/-- A concrete text for the values of key/value operations. -/
def sample_value_text : EVEL_JSON_VALUE → List Char
  | EVEL_JSON_VALUE.string none => "null".data
  | EVEL_JSON_VALUE.string (some s) => sample_quote s
  | EVEL_JSON_VALUE.ull n => (Nat.repr n).data
  | EVEL_JSON_VALUE.int i => (Int.repr i).data
  | EVEL_JSON_VALUE.version major minor =>
    (Int.repr major).data ++ (".".data ++ (Int.repr minor).data)

/-- A concrete text for the emit operations: a comma and a blank before every
sibling but the first, keys between double quotes, braces around objects. -/
def sample_emit_text (first : Bool) : EVEL_JSON_EMIT → List Char
  | EVEL_JSON_EMIT.open_object => (if first then [] else ", ".data) ++ [Char.ofNat 123]
  | EVEL_JSON_EMIT.open_named_object key =>
    (if first then [] else ", ".data) ++ (sample_quote key ++ (": ".data ++ [Char.ofNat 123]))
  | EVEL_JSON_EMIT.close_object => [Char.ofNat 125]
  | EVEL_JSON_EMIT.kv key value =>
    (if first then [] else ", ".data) ++
      (sample_quote key ++ (": ".data ++ sample_value_text value))

/-- The name of an encoder, as text. -/
def sample_encoder_name : EVEL_ENCODER → String
  | EVEL_ENCODER.evel_json_encode_header => "evel_json_encode_header"
  | EVEL_ENCODER.evel_json_encode_fault => "evel_json_encode_fault"
  | EVEL_ENCODER.evel_json_encode_measurement => "evel_json_encode_measurement"
  | EVEL_ENCODER.evel_json_encode_mobile_flow => "evel_json_encode_mobile_flow"
  | EVEL_ENCODER.evel_json_encode_report => "evel_json_encode_report"
  | EVEL_ENCODER.evel_json_encode_hrtbt_field => "evel_json_encode_hrtbt_field"
  | EVEL_ENCODER.evel_json_encode_signaling => "evel_json_encode_signaling"
  | EVEL_ENCODER.evel_json_encode_state_change => "evel_json_encode_state_change"
  | EVEL_ENCODER.evel_json_encode_syslog => "evel_json_encode_syslog"
  | EVEL_ENCODER.evel_json_encode_other => "evel_json_encode_other"
  | EVEL_ENCODER.evel_json_encode_voice_quality => "evel_json_encode_voice_quality"

/-- Concrete collaborators: nothing throttled, body encoders that emit one
member telling which encoder was called, and `sample_emit_text`. -/
def sample_ext : EVEL_COLLABORATORS Unit :=
  { evel_get_throttle_spec := fun _ => throttle_nothing
    body_encoder := fun encoder _ _ _ =>
      some [EVEL_JSON_EMIT.kv "encoder"
        (EVEL_JSON_VALUE.string (some (sample_encoder_name encoder)))]
    emit_text := sample_emit_text }

/-- A concrete heartbeat event: the first heartbeat of a process. -/
def sample_heartbeat_event : EVEL_EVENT Unit :=
  { header := sample_heartbeat, body := () }

/-- A concrete event of the voice quality domain. -/
def sample_voice_quality_event : EVEL_EVENT Unit :=
  { header :=
      { sample_header with event_domain := EVEL_EVENT_DOMAINS.EVEL_DOMAIN_VOICE_QUALITY }
    body := () }

/-- A concrete vendor field storage, all zero. -/
def sample_vfield : VENDOR_VNFNAME_FIELD :=
  { vendorname := none, vfmodule := ⟨false, none⟩, vnfname := ⟨false, none⟩ }

/-- Collaborators that differ from `sample_ext` in the throttle specification
of every domain but the heartbeat domain. -/
def sample_ext_later : EVEL_COLLABORATORS Unit :=
  { sample_ext with
    evel_get_throttle_spec := fun domain =>
      if domain = EVEL_EVENT_DOMAINS.EVEL_DOMAIN_HEARTBEAT then throttle_nothing
      else throttle_event_type }

/-- A concrete memory: the sequence counter after one creation, and the first
heartbeat of the process. -/
def sample_memory : EVEL_MEMORY Unit :=
  { event_sequence := 2, event := sample_heartbeat_event }

/-- A concrete sequence of operations after the creation of a header: a
mutator of each kind, an encoding, an override of the counter and the creation
of another header. -/
def sample_operations : List HEADER_OPERATION :=
  [HEADER_OPERATION.header_type_set (some "X"),
   HEADER_OPERATION.start_epoch_set 5,
   HEADER_OPERATION.last_epoch_set 3,
   HEADER_OPERATION.nfcnamingcode_set (some "nfc"),
   HEADER_OPERATION.nfnamingcode_set (some "nf"),
   HEADER_OPERATION.reporting_entity_name_set (some "entity"),
   HEADER_OPERATION.reporting_entity_id_set (some "entity-id"),
   HEADER_OPERATION.json_encode_header (sample_jbuf throttle_nothing),
   HEADER_OPERATION.set_next_event_sequence 100,
   HEADER_OPERATION.init_other_header sample_call]

/-! ## Releasing a header -/

/-- What a header owns, and the storage of the header itself. -/
inductive HEADER_RESOURCE where
  | event_id
  | event_name
  | reporting_entity_name
  | source_name
  | event_type
  | reporting_entity_id
  | source_id
  | nfcnaming_code
  | nfnaming_code
  | internal_field
  | header_storage
deriving DecidableEq, Repr

/-- One release performed by `evel_free_header`: the function called and the
resource it is called on. -/
inductive RELEASE_ACTION where
  | free (resource : HEADER_RESOURCE)
  | evel_free_option_string (resource : HEADER_RESOURCE)
  | evel_free_option_intheader (resource : HEADER_RESOURCE)
deriving DecidableEq, Repr

/-- The resource a release action releases. -/
def released_resource : RELEASE_ACTION → HEADER_RESOURCE
  | RELEASE_ACTION.free resource => resource
  | RELEASE_ACTION.evel_free_option_string resource => resource
  | RELEASE_ACTION.evel_free_option_intheader resource => resource

/-- The four strings a header owns. -/
def header_owned_strings : List HEADER_RESOURCE :=
  [HEADER_RESOURCE.event_id, HEADER_RESOURCE.event_name,
   HEADER_RESOURCE.reporting_entity_name, HEADER_RESOURCE.source_name]

/-- The six optional fields of a header. -/
def header_option_resources : List HEADER_RESOURCE :=
  [HEADER_RESOURCE.event_type, HEADER_RESOURCE.reporting_entity_id,
   HEADER_RESOURCE.source_id, HEADER_RESOURCE.nfcnaming_code,
   HEADER_RESOURCE.nfnaming_code, HEADER_RESOURCE.internal_field]

/-- Modelled from the spec: `evel_free_option_intheader` is called by
`evel_event.c` but defined elsewhere. "`free()`: releases owned value if any;
idempotent-safe to call on an unset field (no-op)." -/
def evel_free_option_intheader (_option : EVEL_OPTION_INTHEADER) : EVEL_OPTION_INTHEADER :=
  { is_set := false }

/-- The function `evel_free_header`: the header after the call and the release
actions performed, in the order of the source. `free` leaves the pointer it is
given as it is. -/
def evel_free_header (event : EVENT_HEADER) : EVENT_HEADER × List RELEASE_ACTION :=
  ({ event with
      event_type := evel_free_option_string event.event_type
      reporting_entity_id := evel_free_option_string event.reporting_entity_id
      source_id := evel_free_option_string event.source_id
      nfcnaming_code := evel_free_option_string event.nfcnaming_code
      nfnaming_code := evel_free_option_string event.nfnaming_code
      internal_field := evel_free_option_intheader event.internal_field },
   [RELEASE_ACTION.free HEADER_RESOURCE.event_id,
    RELEASE_ACTION.evel_free_option_string HEADER_RESOURCE.event_type,
    RELEASE_ACTION.free HEADER_RESOURCE.event_name,
    RELEASE_ACTION.evel_free_option_string HEADER_RESOURCE.reporting_entity_id,
    RELEASE_ACTION.free HEADER_RESOURCE.reporting_entity_name,
    RELEASE_ACTION.evel_free_option_string HEADER_RESOURCE.source_id,
    RELEASE_ACTION.evel_free_option_string HEADER_RESOURCE.nfcnaming_code,
    RELEASE_ACTION.evel_free_option_string HEADER_RESOURCE.nfnaming_code,
    RELEASE_ACTION.evel_free_option_intheader HEADER_RESOURCE.internal_field,
    RELEASE_ACTION.free HEADER_RESOURCE.source_name])

/-! ## The encoding of a vendor field -/

/-- The function `evel_json_encode_vendor_field`; `none` when the assertion
`jbuf->max_size > 0` or `vfield->vendorname != NULL` fails (the other pointer
assertions hold by typing). -/
def evel_json_encode_vendor_field (jbuf : EVEL_JSON_BUFFER) (vfield : VENDOR_VNFNAME_FIELD) :
    Option EVEL_JSON_BUFFER :=
  if jbuf.max_size ≤ 0 then none
  else
    match vfield.vendorname with
    | none => none
    | some _ =>
      let jbuf := evel_json_open_named_object jbuf "vendorVnfNamedFields"
      let jbuf := evel_enc_kv_string jbuf "vendorName" vfield.vendorname
      let jbuf := evel_enc_kv_opt_string jbuf "vfModuleName" vfield.vfmodule
      let jbuf := evel_enc_kv_opt_string jbuf "vnfName" vfield.vnfname
      some (evel_json_close_object jbuf)

/-- The two optional keys of the vendor field object with the option each one
encodes, in the order of the encoder. -/
def vendor_optional_fields (vfield : VENDOR_VNFNAME_FIELD) :
    List (String × EVEL_OPTION_STRING) :=
  [("vfModuleName", vfield.vfmodule), ("vnfName", vfield.vnfname)]

/-- The optional fields of a vendor field that are set and that a throttle
specification does not suppress, in the order of the encoder. -/
def vendor_optional_present (spec : EVEL_THROTTLE_SPEC) (vfield : VENDOR_VNFNAME_FIELD) :
    List (String × EVEL_OPTION_STRING) :=
  (vendor_optional_fields vfield).filter
    (fun field => field.2.is_set && !spec.is_suppressed field.1)

/-- A throttle specification that suppresses the one key `vfModuleName`. -/
def throttle_vf_module : EVEL_THROTTLE_SPEC :=
  { is_suppressed := fun key => key == "vfModuleName" }

/-- A concrete vendor field: initialised with a vendor name, module name set. -/
def sample_vendor_field : VENDOR_VNFNAME_FIELD :=
  { vendorname := some "vendor", vfmodule := ⟨true, some "module"⟩, vnfname := ⟨false, none⟩ }

/-! ## The range of `long` -/

/-- Largest value of a `long` of 64 bits. -/
def LONG_MAX : Int := 9223372036854775807

/-- A time reading at the edge of the `long` range: the product
`1000000 * tv_sec` fits a `long`, the sum with `tv_usec` does not. -/
def edge_tv : timeval := { tv_sec := 9223372036854, tv_usec := 999999 }

/-! ## Facts about the integer model -/

theorem toDigitsCore_length_le (fuel : Nat) :
    ∀ (n k : Nat) (ds : List Char), n < 10 ^ (k + 1) →
      (Nat.toDigitsCore 10 fuel n ds).length ≤ k + 1 + ds.length := by
  induction fuel with
  | zero => intro n k ds _; simp [Nat.toDigitsCore]
  | succ fuel ih =>
    intro n k ds hn
    simp only [Nat.toDigitsCore]
    split_ifs with h0
    · simp only [List.length_cons]
      omega
    · cases k with
      | zero =>
        exfalso
        apply h0
        simp at hn
        omega
      | succ k =>
        have hdiv : n / 10 < 10 ^ (k + 1) := by
          apply Nat.div_lt_of_lt_mul
          rw [pow_succ] at hn
          omega
        have := ih (n / 10) k ((n % 10).digitChar :: ds) hdiv
        simp at this
        omega

theorem nat_repr_length_le (n : Nat) (hn : n < 10 ^ 10) :
    (Nat.repr n).data.length ≤ 10 := by
  have := toDigitsCore_length_le (n + 1) n 9 [] hn
  simpa [Nat.repr, Nat.toDigits, List.asString] using this

theorem int_repr_length_le (x : Int) (hlo : INT_MIN ≤ x) (hhi : x ≤ INT_MAX) :
    (Int.repr x).data.length ≤ 11 := by
  unfold INT_MIN at hlo
  unfold INT_MAX at hhi
  cases x with
  | ofNat m =>
    have hm : m < 10 ^ 10 := by
      have : (m : Int) ≤ 2147483647 := hhi
      norm_num
      omega
    have := nat_repr_length_le m hm
    simp only [Int.repr]
    omega
  | negSucc m =>
    have hm : m + 1 < 10 ^ 10 := by
      have : -2147483648 ≤ Int.negSucc m := hlo
      rw [Int.negSucc_eq] at this
      norm_num
      omega
    have := nat_repr_length_le (m + 1) hm
    simp only [Int.repr, String.data_append, List.length_append, Nat.succ_eq_add_one]
    have h1 : ("-" : String).data.length = 1 := rfl
    rw [h1]
    omega

/-- With room for eleven characters, `snprintf` stores the whole decimal text
of an `int`. -/
theorem snprintf_d_int (size : Nat) (x : Int) (hsize : 12 ≤ size)
    (hlo : INT_MIN ≤ x) (hhi : x ≤ INT_MAX) : snprintf_d size x = Int.repr x := by
  have := int_repr_length_le x hlo hhi
  unfold snprintf_d
  rw [List.take_of_length_le (by omega)]

theorem wrap_int_of_range (x : Int) (hlo : INT_MIN ≤ x) (hhi : x ≤ INT_MAX) :
    wrap_int x = x := by
  unfold INT_MIN at hlo
  unfold INT_MAX at hhi
  unfold wrap_int wrap_signed
  norm_num
  omega

/-! ## Sequence numbers and event ids (C1, C2) -/

/-- C1 (as amended): for every starting value `c` of the counter and every
list of `k` consecutive `evel_init_header` calls for which `c + k - 1` does not
exceed `INT_MAX`, the headers get the sequence values `c, c+1, ..., c+k-1` and
each header's `event_id` is the decimal string of its own sequence value. -/
theorem C1_consecutive_sequence (env : EVEL_ENVIRONMENT)
    (hsize : 12 ≤ env.EVEL_MAX_STRING_LEN) :
    ∀ (calls : List INIT_CALL) (c : Int), INT_MIN ≤ c →
      c + calls.length - 1 ≤ INT_MAX →
      ((consecutive_init_headers env c calls).1.map (fun h => h.sequence)
          = (List.range calls.length).map (fun i : Nat => c + (i : Int)))
        ∧ ∀ h ∈ (consecutive_init_headers env c calls).1,
            h.event_id = some (Int.repr h.sequence) := by
  intro calls
  induction calls with
  | nil => intro c _ _; simp [consecutive_init_headers]
  | cons call rest ih =>
    intro c hlo hhi
    have hmax : INT_MAX = 2147483647 := rfl
    have hmin : INT_MIN = -2147483648 := rfl
    simp only [List.length_cons] at hhi
    push_cast at hhi
    have hc : c ≤ INT_MAX := by omega
    have hid := snprintf_d_int env.EVEL_MAX_STRING_LEN c hsize hlo hc
    cases rest with
    | nil => simp [consecutive_init_headers, evel_init_header, hid, List.range_succ]
    | cons call2 rest2 =>
      simp only [List.length_cons] at hhi
      push_cast at hhi
      have hw : wrap_int (c + 1) = c + 1 :=
        wrap_int_of_range _ (by omega) (by omega)
      have hrec := ih (c + 1) (by omega) (by
        simp only [List.length_cons]
        push_cast
        omega)
      obtain ⟨hseq, hids⟩ := hrec
      constructor
      · rw [consecutive_init_headers]
        simp only [List.map_cons]
        rw [List.length_cons, List.range_succ_eq_map, List.map_cons, List.map_map]
        congr 1
        · simp [evel_init_header]
        · have : (evel_init_header env c call.tv call.header call.eventname).2 = c + 1 := by
            simp [evel_init_header, hw]
          rw [this, hseq]
          apply List.map_congr_left
          intro i _
          simp only [Function.comp, Nat.succ_eq_add_one]
          push_cast
          ring
      · intro h hh
        rw [consecutive_init_headers] at hh
        simp only [List.mem_cons] at hh
        rcases hh with rfl | hh
        · simp [evel_init_header, hid]
        · have : (evel_init_header env c call.tv call.header call.eventname).2 = c + 1 := by
            simp [evel_init_header, hw]
          rw [this] at hh
          exact hids h hh

/-- Witness of C1: three headers created from the initial counter value 1. -/
theorem C1_consecutive_sequence_witness :
    ((consecutive_init_headers sample_env 1 [sample_call, sample_call, sample_call]).1.map
          (fun h => h.sequence)
        = (List.range 3).map (fun i : Nat => (1 : Int) + (i : Int)))
      ∧ ∀ h ∈ (consecutive_init_headers sample_env 1
            [sample_call, sample_call, sample_call]).1,
          h.event_id = some (Int.repr h.sequence) :=
  C1_consecutive_sequence sample_env (by decide) [sample_call, sample_call, sample_call] 1
    (by decide) (by decide)

/-- C1 as stated fails at the top of the `int` range: starting from
`c = INT_MAX`, the second header does not get `c + 1`. -/
theorem C1_overflow_counterexample :
    (consecutive_init_headers sample_env INT_MAX [sample_call, sample_call]).1.map
        (fun h => h.sequence) = [2147483647, -2147483648]
      ∧ ¬ ((consecutive_init_headers sample_env INT_MAX [sample_call, sample_call]).1.map
          (fun h => h.sequence)
        = (List.range 2).map (fun i : Nat => INT_MAX + (i : Int))) := by
  decide

/-- C2 (as amended): for every `int` `n` below `INT_MAX`, after
`evel_set_next_event_sequence(n)` the next initialised header has sequence `n`
and `event_id` the decimal string of `n`, and the header initialised after it
has sequence `n + 1`. -/
theorem C2_override_then_create (env : EVEL_ENVIRONMENT) (event_sequence n : Int)
    (first second : INIT_CALL) (hsize : 12 ≤ env.EVEL_MAX_STRING_LEN)
    (hlo : INT_MIN ≤ n) (hhi : n < INT_MAX) :
    let c := evel_set_next_event_sequence event_sequence n
    let r1 := evel_init_header env c first.tv first.header first.eventname
    let r2 := evel_init_header env r1.2 second.tv second.header second.eventname
    r1.1.sequence = n ∧ r1.1.event_id = some (Int.repr n) ∧ r2.1.sequence = n + 1 := by
  have hmax : INT_MAX = 2147483647 := rfl
  have hmin : INT_MIN = -2147483648 := rfl
  have hid := snprintf_d_int env.EVEL_MAX_STRING_LEN n hsize hlo (by omega)
  have hw : wrap_int (n + 1) = n + 1 := wrap_int_of_range _ (by omega) (by omega)
  simp [evel_set_next_event_sequence, evel_init_header, hid, hw]

/-- Witness of C2, the scenario of the specification: the next sequence set to
42 gives event id "42" and sequence 42, and the second creation sequence 43. -/
theorem C2_override_then_create_witness :
    (evel_init_header sample_env (evel_set_next_event_sequence 1 42)
        sample_tv EVENT_HEADER_zeroed none).1.sequence = 42
      ∧ (evel_init_header sample_env (evel_set_next_event_sequence 1 42)
        sample_tv EVENT_HEADER_zeroed none).1.event_id = some "42"
      ∧ (evel_init_header sample_env
          (evel_init_header sample_env (evel_set_next_event_sequence 1 42)
            sample_tv EVENT_HEADER_zeroed none).2
          sample_tv EVENT_HEADER_zeroed none).1.sequence = 43 :=
  C2_override_then_create sample_env 1 42 sample_call sample_call
    (by decide) (by decide) (by decide)

/-- C2 as stated fails for `n = INT_MAX`: the header created second has
sequence `INT_MIN`, not `n + 1`. -/
theorem C2_overflow_counterexample :
    (evel_init_header sample_env
        (evel_init_header sample_env (evel_set_next_event_sequence 1 INT_MAX)
          sample_tv EVENT_HEADER_zeroed none).2
        sample_tv EVENT_HEADER_zeroed none).1.sequence = -2147483648
      ∧ (evel_init_header sample_env
        (evel_init_header sample_env (evel_set_next_event_sequence 1 INT_MAX)
          sample_tv EVENT_HEADER_zeroed none).2
        sample_tv EVENT_HEADER_zeroed none).1.sequence ≠ INT_MAX + 1 := by
  decide

/-! ## The output of the header encoder -/

theorem evel_enc_kv_opt_string_json (jbuf : EVEL_JSON_BUFFER) (key : String)
    (option : EVEL_OPTION_STRING) :
    evel_enc_kv_opt_string jbuf key option =
      { jbuf with
        json := jbuf.json ++
          ((if option.is_set && !jbuf.throttle_spec.is_suppressed key
            then [(key, option)] else []).map
              (fun field => member_emit (option_member field))) } := by
  unfold evel_enc_kv_opt_string evel_enc_kv_string member_emit option_member
  cases option.is_set <;> cases jbuf.throttle_spec.is_suppressed key <;> simp

theorem filter_cons_append {α : Type} (p : α → Bool) (x : α) (xs : List α) :
    (x :: xs).filter p = (if p x then [x] else []) ++ xs.filter p := by
  rw [List.filter_cons]
  split_ifs <;> simp

/-- The header encoder, as one equation: it succeeds on a buffer of positive
capacity, leaves capacity, depth and throttle specification as they were, and
appends the opening of `commonEventHeader`, the ten mandatory members, the
optional members that are set and not suppressed, and the closing. -/
theorem evel_json_encode_header_eq (env : EVEL_ENVIRONMENT) (jbuf : EVEL_JSON_BUFFER)
    (event : EVENT_HEADER) (hsize : 0 < jbuf.max_size) :
    evel_json_encode_header env jbuf event =
      some { jbuf with
        json := jbuf.json ++
          (EVEL_JSON_EMIT.open_named_object "commonEventHeader" ::
            ((header_mandatory_members env event).map member_emit ++
              ((header_optional_present jbuf.throttle_spec event).map
                (fun field => member_emit (option_member field)) ++
              [EVEL_JSON_EMIT.close_object]))) } := by
  unfold evel_json_encode_header
  rw [if_neg (not_le.mpr hsize)]
  simp only [evel_enc_kv_opt_string_json]
  simp only [header_optional_present, header_optional_fields, filter_cons_append,
    List.filter_nil, List.map_append, List.append_nil]
  simp [evel_json_open_named_object, evel_enc_kv_string, evel_enc_kv_ull, evel_enc_kv_int,
    evel_enc_version, evel_json_close_object, header_mandatory_members, member_emit]

/-- What the header encoder appends to the buffer, and that it restores the
nesting depth. -/
theorem encode_header_emitted (env : EVEL_ENVIRONMENT) (jbuf : EVEL_JSON_BUFFER)
    (event : EVENT_HEADER) (hsize : 0 < jbuf.max_size) :
    ∃ jbuf', evel_json_encode_header env jbuf event = some jbuf'
      ∧ jbuf'.depth = jbuf.depth
      ∧ emitted_between jbuf jbuf' =
          EVEL_JSON_EMIT.open_named_object "commonEventHeader" ::
            ((header_mandatory_members env event).map member_emit ++
              ((header_optional_present jbuf.throttle_spec event).map
                (fun field => member_emit (option_member field)) ++
              [EVEL_JSON_EMIT.close_object])) := by
  refine ⟨_, evel_json_encode_header_eq env jbuf event hsize, rfl, ?_⟩
  simp [emitted_between]

theorem emit_key_member_emit (member : String × EVEL_JSON_VALUE) :
    emit_key (member_emit member) = some member.1 := rfl

/-- The keys of the members the header encoder emits. -/
theorem encode_header_keys (env : EVEL_ENVIRONMENT) (jbuf : EVEL_JSON_BUFFER)
    (event : EVENT_HEADER) :
    emitted_keys
        (EVEL_JSON_EMIT.open_named_object "commonEventHeader" ::
          ((header_mandatory_members env event).map member_emit ++
            ((header_optional_present jbuf.throttle_spec event).map
              (fun field => member_emit (option_member field)) ++
            [EVEL_JSON_EMIT.close_object])))
      = header_mandatory_keys ++
          (header_optional_present jbuf.throttle_spec event).map Prod.fst := by
  unfold emitted_keys
  rw [List.filterMap_cons, List.filterMap_append, List.filterMap_append, List.filterMap_map,
    List.filterMap_map]
  have h1 : (emit_key ∘ member_emit) = (some ∘ Prod.fst) := rfl
  have h2 : (emit_key ∘ fun field : String × EVEL_OPTION_STRING =>
      member_emit (option_member field)) = (some ∘ Prod.fst) := rfl
  rw [h1, h2, List.filterMap_eq_map, List.filterMap_eq_map]
  simp [emit_key, header_mandatory_members, header_mandatory_keys]

/-- The `eventName` member the header encoder emits is the header's
`event_name`, and no other. -/
theorem mem_emitted_event_name (env : EVEL_ENVIRONMENT) (jbuf jbuf' : EVEL_JSON_BUFFER)
    (event : EVENT_HEADER) (value : EVEL_JSON_VALUE) (hsize : 0 < jbuf.max_size)
    (henc : evel_json_encode_header env jbuf event = some jbuf') :
    EVEL_JSON_EMIT.kv "eventName" value ∈ emitted_between jbuf jbuf'
      ↔ value = EVEL_JSON_VALUE.string event.event_name := by
  obtain ⟨j, hj, _, hem⟩ := encode_header_emitted env jbuf event hsize
  rw [henc] at hj
  cases hj
  rw [hem]
  simp [header_mandatory_members, member_emit, option_member, header_optional_present,
    header_optional_fields, List.mem_filter]
  rintro x x1 (⟨h, -⟩ | ⟨h, -⟩ | ⟨h, -⟩ | ⟨h, -⟩ | ⟨h, -⟩) - - rfl - <;> simp at h

/-- The `eventType` member the header encoder emits is the header's
`event_type`, provided it is set and not suppressed, and no other. -/
theorem mem_emitted_event_type (env : EVEL_ENVIRONMENT) (jbuf jbuf' : EVEL_JSON_BUFFER)
    (event : EVENT_HEADER) (value : EVEL_JSON_VALUE) (hsize : 0 < jbuf.max_size)
    (henc : evel_json_encode_header env jbuf event = some jbuf') :
    EVEL_JSON_EMIT.kv "eventType" value ∈ emitted_between jbuf jbuf'
      ↔ (event.event_type.is_set = true
          ∧ jbuf.throttle_spec.is_suppressed "eventType" = false
          ∧ value = EVEL_JSON_VALUE.string event.event_type.value) := by
  obtain ⟨j, hj, _, hem⟩ := encode_header_emitted env jbuf event hsize
  rw [henc] at hj
  cases hj
  rw [hem]
  simp [header_mandatory_members, member_emit, option_member, header_optional_present,
    header_optional_fields, List.mem_filter]
  constructor
  · rintro ⟨a, b, ⟨hfield, hset, hsup⟩, rfl, rfl⟩
    rcases hfield with ⟨-, rfl⟩ | ⟨h, -⟩ | ⟨h, -⟩ | ⟨h, -⟩ | ⟨h, -⟩
    · exact ⟨hset, hsup, rfl⟩
    all_goals simp at h
  · rintro ⟨hset, hsup, rfl⟩
    exact ⟨"eventType", event.event_type, ⟨Or.inl ⟨rfl, rfl⟩, hset, hsup⟩, rfl, rfl⟩

/-! ## The name of a heartbeat (C3) -/

/-- C3 (as amended): a header created by `evel_new_heartbeat` has `event_name`
"Heartbeat", the literal the factory passes, whatever the configured functional
role; the `eventName` the encoder emits for it is "Heartbeat"; the functional
role is the name only of a header that `evel_init_header` initialises with no
event name. -/
theorem C3_heartbeat_event_name (env : EVEL_ENVIRONMENT) (event_sequence : Int)
    (tv : timeval) (malloc_ok : Bool) (heartbeat : EVENT_HEADER) (jbuf : EVEL_JSON_BUFFER)
    (hnew : (evel_new_heartbeat env event_sequence tv malloc_ok).1 = some heartbeat)
    (hsize : 0 < jbuf.max_size) :
    heartbeat.event_name = some "Heartbeat"
      ∧ (∃ jbuf', evel_json_encode_header env jbuf heartbeat = some jbuf'
          ∧ ∀ value, EVEL_JSON_EMIT.kv "eventName" value ∈ emitted_between jbuf jbuf'
              ↔ value = EVEL_JSON_VALUE.string (some "Heartbeat"))
      ∧ ∀ header, (evel_init_header env event_sequence tv header none).1.event_name
          = some env.functional_role := by
  have hname : heartbeat.event_name = some "Heartbeat" := by
    unfold evel_new_heartbeat at hnew
    cases malloc_ok
    · simp at hnew
    · simp only [if_true, Option.some.injEq] at hnew
      rw [← hnew]
      rfl
  refine ⟨hname, ?_, fun header => rfl⟩
  obtain ⟨jbuf', henc, -, -⟩ := encode_header_emitted env jbuf heartbeat hsize
  refine ⟨jbuf', henc, fun value => ?_⟩
  rw [mem_emitted_event_name env jbuf jbuf' heartbeat value hsize henc, hname]

/-- Witness of C3: the first heartbeat of a process, encoded into the buffer
that `evel_json_encode_event` prepares. -/
theorem C3_heartbeat_event_name_witness :
    sample_heartbeat.event_name = some "Heartbeat"
      ∧ (∃ jbuf', evel_json_encode_header sample_env (sample_jbuf throttle_nothing)
            sample_heartbeat = some jbuf'
          ∧ ∀ value, EVEL_JSON_EMIT.kv "eventName" value
                ∈ emitted_between (sample_jbuf throttle_nothing) jbuf'
              ↔ value = EVEL_JSON_VALUE.string (some "Heartbeat"))
      ∧ ∀ header, (evel_init_header sample_env 1 sample_tv header none).1.event_name
          = some sample_env.functional_role :=
  C3_heartbeat_event_name sample_env 1 sample_tv true sample_heartbeat
    (sample_jbuf throttle_nothing) rfl (by decide)

/-- C3 as stated fails: with the functional role configured as "vFirewall",
the heartbeat's `event_name` is "Heartbeat", not the functional role. -/
theorem C3_heartbeat_name_counterexample :
    (evel_new_heartbeat sample_env 1 sample_tv true).1.map (fun h => h.event_name)
        = some (some "Heartbeat")
      ∧ (evel_new_heartbeat sample_env 1 sample_tv true).1.map (fun h => h.event_name)
        ≠ some (some sample_env.functional_role) := by
  decide

/-! ## The set-once setters (C4) -/

/-- C4 (as amended): on a header freshly initialised by `evel_init_header`,
`evel_header_type_set(h, a)` followed by `evel_header_type_set(h, b)` leaves
`event_type` set with value `a`; the only `eventType` the encoder then emits is
`a`, and it emits it unless the throttle specification of the buffer suppresses
the key `eventType`. `evel_nfcnamingcode_set` and `evel_nfnamingcode_set` are
first-writer-wins on their fields in the same way. -/
theorem C4_set_once (env : EVEL_ENVIRONMENT) (event_sequence : Int) (tv : timeval)
    (header : EVENT_HEADER) (eventname : Option String) (a b : String)
    (jbuf : EVEL_JSON_BUFFER) (hsize : 0 < jbuf.max_size) :
    let h := (evel_init_header env event_sequence tv header eventname).1
    (∃ h2, (evel_header_type_set h (some a)).bind
            (fun h1 => evel_header_type_set h1 (some b)) = some h2
        ∧ h2.event_type = { is_set := true, value := some a }
        ∧ ∃ jbuf', evel_json_encode_header env jbuf h2 = some jbuf'
            ∧ ∀ value, EVEL_JSON_EMIT.kv "eventType" value ∈ emitted_between jbuf jbuf'
                ↔ (jbuf.throttle_spec.is_suppressed "eventType" = false
                    ∧ value = EVEL_JSON_VALUE.string (some a)))
      ∧ (∃ h2, (evel_nfcnamingcode_set h (some a)).bind
            (fun h1 => evel_nfcnamingcode_set h1 (some b)) = some h2
          ∧ h2.nfcnaming_code = { is_set := true, value := some a })
      ∧ (∃ h2, (evel_nfnamingcode_set h (some a)).bind
            (fun h1 => evel_nfnamingcode_set h1 (some b)) = some h2
          ∧ h2.nfnaming_code = { is_set := true, value := some a }) := by
  intro h
  refine ⟨⟨_, rfl, rfl, ?_⟩, ⟨_, rfl, rfl⟩, ⟨_, rfl, rfl⟩⟩
  obtain ⟨jbuf', henc, -, -⟩ := encode_header_emitted env jbuf _ hsize
  refine ⟨jbuf', henc, fun value => ?_⟩
  rw [mem_emitted_event_type env jbuf jbuf' _ value hsize henc]
  simp [evel_set_option_string, evel_init_header, evel_init_option_string, h]

/-- Witness of C4: the first header of a process, types "X" then "Y", encoded
into an unthrottled buffer of capacity 4096. -/
theorem C4_set_once_witness :
    0 < (sample_jbuf throttle_nothing).max_size
      ∧ ∃ h2, (evel_header_type_set sample_header (some "X")).bind
            (fun h1 => evel_header_type_set h1 (some "Y")) = some h2
        ∧ h2.event_type = { is_set := true, value := some "X" }
        ∧ ∃ jbuf', evel_json_encode_header sample_env (sample_jbuf throttle_nothing) h2
              = some jbuf'
            ∧ ∀ value, EVEL_JSON_EMIT.kv "eventType" value
                  ∈ emitted_between (sample_jbuf throttle_nothing) jbuf'
                ↔ ((sample_jbuf throttle_nothing).throttle_spec.is_suppressed "eventType"
                      = false
                    ∧ value = EVEL_JSON_VALUE.string (some "X")) :=
  ⟨by decide,
   (C4_set_once sample_env event_sequence_initial sample_tv EVENT_HEADER_zeroed none "X" "Y"
      (sample_jbuf throttle_nothing) (by decide)).1⟩

/-- C4 as stated fails when the buffer's throttle specification suppresses
`eventType`: after the two setter calls the field is set, yet the encoder emits
the mandatory keys, `reportingEntityId` and `sourceId`, and no `eventType`. -/
theorem C4_throttled_counterexample :
    ((evel_header_type_set sample_header (some "X")).bind
          (fun h1 => evel_header_type_set h1 (some "Y"))).map (fun h2 => h2.event_type)
        = some { is_set := true, value := some "X" }
      ∧ (((evel_header_type_set sample_header (some "X")).bind
          (fun h1 => evel_header_type_set h1 (some "Y"))).bind
          (fun h2 => evel_json_encode_header sample_env (sample_jbuf throttle_event_type) h2)).map
          (fun jbuf' => emitted_keys (emitted_between (sample_jbuf throttle_event_type) jbuf'))
        = some (header_mandatory_keys ++ ["reportingEntityId", "sourceId"]) := by
  decide

/-! ## The option fields of a new heartbeat (C5) -/

/-- C5 (as amended): right after creation by `evel_new_heartbeat` the nfc
naming code, the nf naming code and the internal field are unset, but the event
type is set, to "Autonomous heartbeat"; so `evel_header_type_set(h, x)` on a
new heartbeat changes nothing, and the `eventType` the encoder emits for it is
"Autonomous heartbeat", emitted unless the throttle specification suppresses
that key. -/
theorem C5_new_heartbeat_options (env : EVEL_ENVIRONMENT) (event_sequence : Int)
    (tv : timeval) (malloc_ok : Bool) (heartbeat : EVENT_HEADER) (x : String)
    (jbuf : EVEL_JSON_BUFFER)
    (hnew : (evel_new_heartbeat env event_sequence tv malloc_ok).1 = some heartbeat)
    (hsize : 0 < jbuf.max_size) :
    heartbeat.event_type = { is_set := true, value := some "Autonomous heartbeat" }
      ∧ heartbeat.nfcnaming_code.is_set = false
      ∧ heartbeat.nfnaming_code.is_set = false
      ∧ heartbeat.internal_field.is_set = false
      ∧ evel_header_type_set heartbeat (some x) = some heartbeat
      ∧ ∃ jbuf', evel_json_encode_header env jbuf heartbeat = some jbuf'
          ∧ ∀ value, EVEL_JSON_EMIT.kv "eventType" value ∈ emitted_between jbuf jbuf'
              ↔ (jbuf.throttle_spec.is_suppressed "eventType" = false
                  ∧ value = EVEL_JSON_VALUE.string (some "Autonomous heartbeat")) := by
  have hh : heartbeat =
      { (evel_init_header env event_sequence tv EVENT_HEADER_zeroed (some "Heartbeat")).1 with
        event_type := { is_set := true, value := some "Autonomous heartbeat" } } := by
    unfold evel_new_heartbeat at hnew
    cases malloc_ok
    · simp at hnew
    · simp only [if_true, Option.some.injEq] at hnew
      rw [← hnew]
      rfl
  have htype : heartbeat.event_type
      = { is_set := true, value := some "Autonomous heartbeat" } := by rw [hh]
  refine ⟨htype, by rw [hh]; rfl, by rw [hh]; rfl, by rw [hh]; rfl, ?_, ?_⟩
  · simp only [evel_header_type_set, evel_set_option_string, htype, if_true]
    rw [← htype]
  · obtain ⟨jbuf', henc, -, -⟩ := encode_header_emitted env jbuf heartbeat hsize
    refine ⟨jbuf', henc, fun value => ?_⟩
    rw [mem_emitted_event_type env jbuf jbuf' heartbeat value hsize henc, htype]
    simp

/-- Witness of C5: the first heartbeat of a process and the type "X". -/
theorem C5_new_heartbeat_options_witness :
    sample_heartbeat.event_type = { is_set := true, value := some "Autonomous heartbeat" }
      ∧ sample_heartbeat.nfcnaming_code.is_set = false
      ∧ sample_heartbeat.nfnaming_code.is_set = false
      ∧ sample_heartbeat.internal_field.is_set = false
      ∧ evel_header_type_set sample_heartbeat (some "X") = some sample_heartbeat
      ∧ ∃ jbuf', evel_json_encode_header sample_env (sample_jbuf throttle_nothing)
            sample_heartbeat = some jbuf'
          ∧ ∀ value, EVEL_JSON_EMIT.kv "eventType" value
                ∈ emitted_between (sample_jbuf throttle_nothing) jbuf'
              ↔ ((sample_jbuf throttle_nothing).throttle_spec.is_suppressed "eventType" = false
                  ∧ value = EVEL_JSON_VALUE.string (some "Autonomous heartbeat")) :=
  C5_new_heartbeat_options sample_env 1 sample_tv true sample_heartbeat "X"
    (sample_jbuf throttle_nothing) rfl (by decide)

/-- C5 as stated fails: the event type of a new heartbeat is already set, and
after `evel_header_type_set(h, "X")` it still holds "Autonomous heartbeat",
which is what the encoder emits as `eventType`. -/
theorem C5_event_type_counterexample :
    (evel_new_heartbeat sample_env 1 sample_tv true).1.map (fun h => h.event_type.is_set)
        = some true
      ∧ ((evel_new_heartbeat sample_env 1 sample_tv true).1.bind
            (fun h => evel_header_type_set h (some "X"))).map (fun h => h.event_type.value)
        = some (some "Autonomous heartbeat")
      ∧ (((evel_new_heartbeat sample_env 1 sample_tv true).1.bind
            (fun h => evel_header_type_set h (some "X"))).bind
            (fun h => evel_json_encode_header sample_env (sample_jbuf throttle_nothing) h)).map
          (fun jbuf' => decide (EVEL_JSON_EMIT.kv "eventType" (EVEL_JSON_VALUE.string (some "X"))
            ∈ emitted_between (sample_jbuf throttle_nothing) jbuf'))
        = some false := by
  decide

/-! ## The reporting entity setters (C6, C7) and argument checks (C8) -/

/-- C6 (as amended): `evel_init_header` sets `reporting_entity_id` to the VM
UUID of the metadata provider, and the public setter overrides it: for every
string `s`, `evel_reporting_entity_id_set(h, s)` succeeds and leaves the field
set with value `s`, every other field unchanged. -/
theorem C6_reporting_entity_id_overridden (env : EVEL_ENVIRONMENT) (event_sequence : Int)
    (tv : timeval) (header : EVENT_HEADER) (eventname : Option String) (s : String) :
    let h := (evel_init_header env event_sequence tv header eventname).1
    h.reporting_entity_id = { is_set := true, value := some env.openstack_vm_uuid }
      ∧ evel_reporting_entity_id_set h (some s)
        = some { h with reporting_entity_id := { is_set := true, value := some s } } := by
  intro h
  exact ⟨rfl, rfl⟩

/-- C6 as stated fails: on the first header of a process, whose reporting
entity id is the VM UUID "uuid-1", the setter called with "other-id" leaves
the field holding "other-id". -/
theorem C6_override_counterexample :
    sample_header.reporting_entity_id = { is_set := true, value := some "uuid-1" }
      ∧ (evel_reporting_entity_id_set sample_header (some "other-id")).map
          (fun h => h.reporting_entity_id)
        = some { is_set := true, value := some "other-id" }
      ∧ (evel_reporting_entity_id_set sample_header (some "other-id")).map
          (fun h => h.reporting_entity_id)
        ≠ some { is_set := true, value := some sample_env.openstack_vm_uuid } := by
  decide

/-- C7: on a header whose `reporting_entity_name` is present, for every string
`s`, `evel_reporting_entity_name_set(h, s)` succeeds and leaves
`reporting_entity_name` equal to `s` and every other field unchanged; after two
calls with `a` then `b` the name is `b`. -/
theorem C7_reporting_entity_name_overwritten (header : EVENT_HEADER) (old s a b : String)
    (hname : header.reporting_entity_name = some old) :
    evel_reporting_entity_name_set header (some s)
        = some { header with reporting_entity_name := some s }
      ∧ (evel_reporting_entity_name_set header (some a)).bind
          (fun h1 => evel_reporting_entity_name_set h1 (some b))
        = some { header with reporting_entity_name := some b } := by
  simp [evel_reporting_entity_name_set, hname]

/-- Witness of C7: the first header of a process, whose name is "vm-1". -/
theorem C7_reporting_entity_name_overwritten_witness :
    sample_header.reporting_entity_name = some "vm-1"
      ∧ evel_reporting_entity_name_set sample_header (some "entity")
        = some { sample_header with reporting_entity_name := some "entity" }
      ∧ (evel_reporting_entity_name_set sample_header (some "first")).bind
          (fun h1 => evel_reporting_entity_name_set h1 (some "second"))
        = some { sample_header with reporting_entity_name := some "second" } :=
  ⟨rfl, C7_reporting_entity_name_overwritten sample_header "vm-1" "entity" "first" "second" rfl⟩

/-- C8 (as amended): every string-taking header mutator fails its
precondition check when the string argument is absent (NULL), and accepts every
string that is present, the empty one included; `evel_reporting_entity_name_set`
succeeds on a present string exactly when the header's current
`reporting_entity_name` is present. -/
theorem C8_null_argument_rejected (header : EVENT_HEADER) (s : String) :
    evel_header_type_set header none = none
      ∧ evel_nfcnamingcode_set header none = none
      ∧ evel_nfnamingcode_set header none = none
      ∧ evel_reporting_entity_name_set header none = none
      ∧ evel_reporting_entity_id_set header none = none
      ∧ (evel_header_type_set header (some s)).isSome = true
      ∧ (evel_nfcnamingcode_set header (some s)).isSome = true
      ∧ (evel_nfnamingcode_set header (some s)).isSome = true
      ∧ (evel_reporting_entity_id_set header (some s)).isSome = true
      ∧ (evel_reporting_entity_name_set header (some s)).isSome
          = header.reporting_entity_name.isSome := by
  refine ⟨rfl, rfl, rfl, rfl, rfl, rfl, rfl, rfl, rfl, ?_⟩
  unfold evel_reporting_entity_name_set
  cases header.reporting_entity_name <;> rfl

/-- C8 as stated fails for the empty string: `evel_reporting_entity_name_set`
accepts it and changes the header, and `evel_header_type_set` accepts it and
stores it. -/
theorem C8_empty_string_counterexample :
    evel_reporting_entity_name_set sample_header (some "")
        = some { sample_header with reporting_entity_name := some "" }
      ∧ evel_reporting_entity_name_set sample_header (some "") ≠ none
      ∧ evel_reporting_entity_name_set sample_header (some "") ≠ some sample_header
      ∧ (evel_header_type_set sample_header (some "")).map (fun h => h.event_type)
        = some { is_set := true, value := some "" } := by
  decide

/-! ## The keys of the encoded header (C9, C10) -/

/-- C9 (as amended): on a buffer of positive capacity, for every header,
`evel_json_encode_header` emits one named object "commonEventHeader" whose
members have, in exactly this order, the keys domain, eventId, eventName,
lastEpochMicrosec, priority, reportingEntityName, sequence, sourceName,
startEpochMicrosec, version, followed by those of eventType, reportingEntityId,
sourceId, nfcNamingCode, nfNamingCode whose option field is set and whose key
the buffer's throttle specification does not suppress; nothing else is
emitted. -/
theorem C9_header_keys (env : EVEL_ENVIRONMENT) (jbuf : EVEL_JSON_BUFFER)
    (event : EVENT_HEADER) (hsize : 0 < jbuf.max_size) :
    ∃ (jbuf' : EVEL_JSON_BUFFER) (members : List (String × EVEL_JSON_VALUE)),
      evel_json_encode_header env jbuf event = some jbuf'
        ∧ emitted_between jbuf jbuf' =
            EVEL_JSON_EMIT.open_named_object "commonEventHeader" ::
              (members.map member_emit ++ [EVEL_JSON_EMIT.close_object])
        ∧ members.map Prod.fst =
            header_mandatory_keys ++
              ((header_optional_fields event).filter
                (fun field => field.2.is_set && !jbuf.throttle_spec.is_suppressed field.1)).map
                Prod.fst := by
  obtain ⟨jbuf', henc, -, hem⟩ := encode_header_emitted env jbuf event hsize
  refine ⟨jbuf', header_mandatory_members env event ++
    (header_optional_present jbuf.throttle_spec event).map option_member, henc, ?_, ?_⟩
  · rw [hem]
    simp [List.map_append, List.map_map, Function.comp]
  · simp [List.map_append, List.map_map, Function.comp, header_mandatory_members,
      header_mandatory_keys, header_optional_present, option_member]

/-- Witness of C9: the first heartbeat of a process, encoded into the buffer
that `evel_json_encode_event` prepares, nothing throttled. -/
theorem C9_header_keys_witness :
    0 < (sample_jbuf throttle_nothing).max_size
      ∧ ∃ (jbuf' : EVEL_JSON_BUFFER) (members : List (String × EVEL_JSON_VALUE)),
        evel_json_encode_header sample_env (sample_jbuf throttle_nothing) sample_heartbeat
            = some jbuf'
          ∧ emitted_between (sample_jbuf throttle_nothing) jbuf' =
              EVEL_JSON_EMIT.open_named_object "commonEventHeader" ::
                (members.map member_emit ++ [EVEL_JSON_EMIT.close_object])
          ∧ members.map Prod.fst =
              header_mandatory_keys ++
                ((header_optional_fields sample_heartbeat).filter
                  (fun field => field.2.is_set
                    && !(sample_jbuf throttle_nothing).throttle_spec.is_suppressed field.1)).map
                  Prod.fst :=
  ⟨by decide, C9_header_keys sample_env (sample_jbuf throttle_nothing) sample_heartbeat
    (by decide)⟩

/-- C9 as stated fails when the throttle specification suppresses a key whose
field is set: the event type of the heartbeat is set, the buffer suppresses
`eventType`, and the keys emitted are the ten mandatory ones followed by
`reportingEntityId` and `sourceId` only. -/
theorem C9_throttled_counterexample :
    sample_heartbeat.event_type.is_set = true
      ∧ (evel_json_encode_header sample_env (sample_jbuf throttle_event_type)
          sample_heartbeat).map
          (fun jbuf' => emitted_keys (emitted_between (sample_jbuf throttle_event_type) jbuf'))
        = some ["domain", "eventId", "eventName", "lastEpochMicrosec", "priority",
            "reportingEntityName", "sequence", "sourceName", "startEpochMicrosec", "version",
            "reportingEntityId", "sourceId"]
      ∧ (evel_json_encode_header sample_env (sample_jbuf throttle_event_type)
          sample_heartbeat).map
          (fun jbuf' => emitted_keys (emitted_between (sample_jbuf throttle_event_type) jbuf'))
        ≠ some ["domain", "eventId", "eventName", "lastEpochMicrosec", "priority",
            "reportingEntityName", "sequence", "sourceName", "startEpochMicrosec", "version",
            "eventType", "reportingEntityId", "sourceId"] := by
  decide

/-- C10: on a buffer of positive capacity, for every throttle specification
attached to the buffer and every header, `evel_json_encode_header` emits all
ten mandatory keys; and a key that is emitted when nothing is throttled but is
missing under the throttle specification is one of the five optional keys. -/
theorem C10_mandatory_never_throttled (env : EVEL_ENVIRONMENT) (jbuf : EVEL_JSON_BUFFER)
    (spec : EVEL_THROTTLE_SPEC) (event : EVENT_HEADER) (hsize : 0 < jbuf.max_size) :
    ∃ throttled unthrottled : EVEL_JSON_BUFFER,
      evel_json_encode_header env { jbuf with throttle_spec := spec } event = some throttled
        ∧ evel_json_encode_header env { jbuf with throttle_spec := throttle_nothing } event
            = some unthrottled
        ∧ (∀ key ∈ header_mandatory_keys,
            key ∈ emitted_keys (emitted_between jbuf throttled))
        ∧ (∀ key ∈ emitted_keys (emitted_between jbuf unthrottled),
            key ∉ emitted_keys (emitted_between jbuf throttled) →
              key ∈ header_optional_keys) := by
  obtain ⟨throttled, henc1, -, hem1⟩ :=
    encode_header_emitted env { jbuf with throttle_spec := spec } event hsize
  obtain ⟨unthrottled, henc2, -, hem2⟩ :=
    encode_header_emitted env { jbuf with throttle_spec := throttle_nothing } event hsize
  have hk1 := encode_header_keys env { jbuf with throttle_spec := spec } event
  have hk2 := encode_header_keys env { jbuf with throttle_spec := throttle_nothing } event
  rw [← hem1] at hk1
  rw [← hem2] at hk2
  have e1 : emitted_between jbuf throttled
      = emitted_between { jbuf with throttle_spec := spec } throttled := rfl
  have e2 : emitted_between jbuf unthrottled
      = emitted_between { jbuf with throttle_spec := throttle_nothing } unthrottled := rfl
  refine ⟨throttled, unthrottled, henc1, henc2, ?_, ?_⟩
  · intro key hkey
    rw [e1, hk1]
    exact List.mem_append_left _ hkey
  · intro key hkey hnot
    rw [e2, hk2] at hkey
    rw [e1, hk1] at hnot
    rcases List.mem_append.mp hkey with hm | ho
    · exact absurd (List.mem_append_left _ hm) hnot
    · obtain ⟨field, hfield, rfl⟩ := List.mem_map.mp ho
      have hmem : field ∈ header_optional_fields event :=
        (List.mem_filter.mp hfield).1
      simp only [header_optional_fields, List.mem_cons, List.mem_singleton,
        List.not_mem_nil, or_false] at hmem
      rcases hmem with rfl | rfl | rfl | rfl | rfl <;> simp [header_optional_keys]

/-- Witness of C10: the first heartbeat of a process under a throttle
specification that suppresses `eventType`. -/
theorem C10_mandatory_never_throttled_witness :
    0 < (sample_jbuf throttle_nothing).max_size
      ∧ ∃ throttled unthrottled : EVEL_JSON_BUFFER,
        evel_json_encode_header sample_env
            { sample_jbuf throttle_nothing with throttle_spec := throttle_event_type }
            sample_heartbeat = some throttled
          ∧ evel_json_encode_header sample_env
              { sample_jbuf throttle_nothing with throttle_spec := throttle_nothing }
              sample_heartbeat = some unthrottled
          ∧ (∀ key ∈ header_mandatory_keys,
              key ∈ emitted_keys (emitted_between (sample_jbuf throttle_nothing) throttled))
          ∧ (∀ key ∈ emitted_keys (emitted_between (sample_jbuf throttle_nothing) unthrottled),
              key ∉ emitted_keys (emitted_between (sample_jbuf throttle_nothing) throttled) →
                key ∈ header_optional_keys) :=
  ⟨by decide, C10_mandatory_never_throttled sample_env (sample_jbuf throttle_nothing)
    throttle_event_type sample_heartbeat (by decide)⟩

/-! ## The buffer after a sequence of emit operations -/

theorem evel_json_emit_eq (jbuf : EVEL_JSON_BUFFER) (op : EVEL_JSON_EMIT) :
    evel_json_emit jbuf op =
      { jbuf with json := jbuf.json ++ [op], depth := jbuf.depth + emit_depth op } := by
  cases op with
  | open_object => rfl
  | open_named_object key => rfl
  | close_object => rfl
  | kv key value =>
    cases value <;>
      simp [evel_json_emit, evel_enc_kv_string, evel_enc_kv_ull, evel_enc_kv_int,
        evel_enc_version, emit_depth]

theorem foldl_evel_json_emit (ops : List EVEL_JSON_EMIT) :
    ∀ jbuf : EVEL_JSON_BUFFER, ops.foldl evel_json_emit jbuf =
      { jbuf with json := jbuf.json ++ ops, depth := jbuf.depth + depth_change ops } := by
  induction ops with
  | nil => intro jbuf; simp [depth_change]
  | cons op ops ih =>
    intro jbuf
    rw [List.foldl_cons, ih, evel_json_emit_eq]
    simp [depth_change, add_assoc]

theorem depth_change_append (xs ys : List EVEL_JSON_EMIT) :
    depth_change (xs ++ ys) = depth_change xs + depth_change ys := by
  simp [depth_change]

theorem depth_change_members {α : Type} (f : α → String × EVEL_JSON_VALUE) (xs : List α) :
    depth_change (xs.map (fun x => member_emit (f x))) = 0 := by
  induction xs with
  | nil => rfl
  | cons x xs ih =>
    simp only [depth_change, List.map_cons, List.sum_cons] at ih ⊢
    rw [ih]
    rfl

theorem depth_change_header_emits (env : EVEL_ENVIRONMENT) (spec : EVEL_THROTTLE_SPEC)
    (header : EVENT_HEADER) : depth_change (header_emits env spec header) = 0 := by
  have h1 := depth_change_members (fun m => m) (header_mandatory_members env header)
  have h2 := depth_change_members option_member (header_optional_present spec header)
  have h1' : depth_change ((header_mandatory_members env header).map member_emit) = 0 := h1
  unfold header_emits
  rw [show ∀ (x : EVEL_JSON_EMIT) (xs : List EVEL_JSON_EMIT), x :: xs = [x] ++ xs from
    fun _ _ => rfl]
  rw [depth_change_append, depth_change_append, depth_change_append, h1', h2]
  rfl

/-- The call of an encoder, as one equation: the buffer gains the emit
operations of the encoder and their change of depth. -/
theorem evel_json_call_encoder_eq {β : Type} (env : EVEL_ENVIRONMENT)
    (ext : EVEL_COLLABORATORS β) (encoder : EVEL_ENCODER) (jbuf : EVEL_JSON_BUFFER)
    (event : EVEL_EVENT β) :
    evel_json_call_encoder env ext encoder jbuf event =
      (encoder_emits env ext jbuf.max_size encoder jbuf.throttle_spec event).map
        (fun ops =>
          { jbuf with json := jbuf.json ++ ops, depth := jbuf.depth + depth_change ops }) := by
  cases encoder
  case evel_json_encode_header =>
    simp only [evel_json_call_encoder, encoder_emits]
    by_cases hsize : jbuf.max_size ≤ 0
    · simp [evel_json_encode_header, hsize]
    · rw [evel_json_encode_header_eq env jbuf event.header (not_le.mp hsize), if_neg hsize]
      have hdepth := depth_change_header_emits env jbuf.throttle_spec event.header
      simp only [Option.map_some', hdepth, add_zero]
      rfl
  all_goals
    simp only [evel_json_call_encoder, encoder_emits, foldl_evel_json_emit]

/-- The event encoder up to its `return`, as one equation: the abort of the
switch, the abort inside the encoder called, or the two opened objects, the
emit operations of the encoder and the two closings, the final depth check
passing exactly when the operations of the encoder are balanced. -/
theorem evel_json_encode_event_jbuf_eq {β : Type} (env : EVEL_ENVIRONMENT)
    (ext : EVEL_COLLABORATORS β) (max_size : Int) (event : EVEL_EVENT β) :
    evel_json_encode_event_jbuf env ext max_size event =
      match evel_json_encode_event_dispatch event.header.event_domain with
      | none => Except.error EVEL_ABORT.unexpected_domain
      | some encoder =>
        match encoder_emits env ext max_size encoder
            (ext.evel_get_throttle_spec event.header.event_domain) event with
        | none => Except.error EVEL_ABORT.encoder_assertion
        | some ops =>
          if depth_change ops = 0 then
            Except.ok
              { json := EVEL_JSON_EMIT.open_object ::
                  EVEL_JSON_EMIT.open_named_object "event" ::
                    (ops ++ [EVEL_JSON_EMIT.close_object, EVEL_JSON_EMIT.close_object])
                max_size := max_size
                depth := 0
                throttle_spec := ext.evel_get_throttle_spec event.header.event_domain }
          else Except.error EVEL_ABORT.depth_not_zero := by
  unfold evel_json_encode_event_jbuf
  cases hd : evel_json_encode_event_dispatch event.header.event_domain with
  | none => rfl
  | some encoder =>
    simp only [evel_json_call_encoder_eq]
    simp only [evel_json_open_named_object, evel_json_open_object, evel_json_buffer_init]
    cases hops : encoder_emits env ext max_size encoder
        (ext.evel_get_throttle_spec event.header.event_domain) event with
    | none => rfl
    | some ops =>
      simp only [Option.map_some', evel_json_close_object]
      by_cases hbal : depth_change ops = 0
      · simp [hbal]
      · simp only [hbal, if_false]
        rw [if_neg]
        intro h
        apply hbal
        omega

/-! ## The document of a heartbeat (C11) -/

/-- C11: for every event whose domain is heartbeat and every capacity
`max_size > 0`, `evel_json_encode_event` does not abort; the operations it
applies to its buffer are the opening of the top-level object, the opening of
the named object "event", the encoding of the header alone (the named object
"commonEventHeader" with the mandatory members and the optional members that
are set and not suppressed), and three closings; the nesting depth at the end
is 0. -/
theorem C11_heartbeat_document {β : Type} (env : EVEL_ENVIRONMENT)
    (ext : EVEL_COLLABORATORS β) (max_size : Int) (event : EVEL_EVENT β)
    (hdomain : event.header.event_domain = EVEL_EVENT_DOMAINS.EVEL_DOMAIN_HEARTBEAT)
    (hsize : 0 < max_size) :
    ∃ jbuf : EVEL_JSON_BUFFER,
      evel_json_encode_event_jbuf env ext max_size event = Except.ok jbuf
        ∧ evel_json_encode_event env ext max_size event =
            Except.ok (evel_json_buffer_bytes ext.emit_text jbuf,
              evel_json_buffer_offset ext.emit_text jbuf)
        ∧ jbuf.json =
            [EVEL_JSON_EMIT.open_object, EVEL_JSON_EMIT.open_named_object "event",
              EVEL_JSON_EMIT.open_named_object "commonEventHeader"] ++
            ((header_mandatory_members env event.header).map member_emit ++
              (header_optional_present
                (ext.evel_get_throttle_spec EVEL_EVENT_DOMAINS.EVEL_DOMAIN_HEARTBEAT)
                event.header).map (fun field => member_emit (option_member field))) ++
            [EVEL_JSON_EMIT.close_object, EVEL_JSON_EMIT.close_object,
              EVEL_JSON_EMIT.close_object]
        ∧ jbuf.depth = 0
        ∧ depth_change jbuf.json = 0 := by
  have hrun := evel_json_encode_event_jbuf_eq env ext max_size event
  rw [hdomain] at hrun
  simp only [evel_json_encode_event_dispatch, encoder_emits, if_neg (not_le.mpr hsize),
    depth_change_header_emits, if_true] at hrun
  refine ⟨_, hrun, ?_, ?_, rfl, ?_⟩
  · simp only [evel_json_encode_event, hrun]
  · simp [header_emits]
  · have hm := depth_change_members (fun m => m) (header_mandatory_members env event.header)
    have ho := depth_change_members option_member
      (header_optional_present
        (ext.evel_get_throttle_spec EVEL_EVENT_DOMAINS.EVEL_DOMAIN_HEARTBEAT) event.header)
    have hh := depth_change_header_emits env
      (ext.evel_get_throttle_spec EVEL_EVENT_DOMAINS.EVEL_DOMAIN_HEARTBEAT) event.header
    rw [show ∀ (x y : EVEL_JSON_EMIT) (xs : List EVEL_JSON_EMIT),
      x :: y :: xs = [x, y] ++ xs from fun _ _ _ => rfl, depth_change_append,
      depth_change_append, hh]
    rfl

/-- Witness of C11: the first heartbeat of a process encoded into a buffer of
4096 bytes. -/
theorem C11_heartbeat_document_witness :
    sample_heartbeat_event.header.event_domain = EVEL_EVENT_DOMAINS.EVEL_DOMAIN_HEARTBEAT
      ∧ (0 : Int) < 4096
      ∧ ∃ jbuf : EVEL_JSON_BUFFER,
        evel_json_encode_event_jbuf sample_env sample_ext 4096 sample_heartbeat_event
            = Except.ok jbuf
          ∧ evel_json_encode_event sample_env sample_ext 4096 sample_heartbeat_event =
              Except.ok (evel_json_buffer_bytes sample_ext.emit_text jbuf,
                evel_json_buffer_offset sample_ext.emit_text jbuf)
          ∧ jbuf.json =
              [EVEL_JSON_EMIT.open_object, EVEL_JSON_EMIT.open_named_object "event",
                EVEL_JSON_EMIT.open_named_object "commonEventHeader"] ++
              ((header_mandatory_members sample_env sample_heartbeat_event.header).map
                  member_emit ++
                (header_optional_present
                  (sample_ext.evel_get_throttle_spec EVEL_EVENT_DOMAINS.EVEL_DOMAIN_HEARTBEAT)
                  sample_heartbeat_event.header).map
                  (fun field => member_emit (option_member field))) ++
              [EVEL_JSON_EMIT.close_object, EVEL_JSON_EMIT.close_object,
                EVEL_JSON_EMIT.close_object]
          ∧ jbuf.depth = 0
          ∧ depth_change jbuf.json = 0 :=
  ⟨rfl, by decide,
    C11_heartbeat_document sample_env sample_ext 4096 sample_heartbeat_event rfl (by decide)⟩

/-! ## The dispatch on the domain (C12, C13) -/

theorem evel_json_encode_event_eq {β : Type} (env : EVEL_ENVIRONMENT)
    (ext : EVEL_COLLABORATORS β) (max_size : Int) (event : EVEL_EVENT β) :
    evel_json_encode_event env ext max_size event =
      match evel_json_encode_event_dispatch event.header.event_domain with
      | none => Except.error EVEL_ABORT.unexpected_domain
      | some encoder =>
        match encoder_emits env ext max_size encoder
            (ext.evel_get_throttle_spec event.header.event_domain) event with
        | none => Except.error EVEL_ABORT.encoder_assertion
        | some ops =>
          if depth_change ops = 0 then
            Except.ok
              (json_region ext.emit_text max_size none []
                (EVEL_JSON_EMIT.open_object ::
                  EVEL_JSON_EMIT.open_named_object "event" ::
                    (ops ++ [EVEL_JSON_EMIT.close_object, EVEL_JSON_EMIT.close_object])),
               ((json_region ext.emit_text max_size none []
                (EVEL_JSON_EMIT.open_object ::
                  EVEL_JSON_EMIT.open_named_object "event" ::
                    (ops ++ [EVEL_JSON_EMIT.close_object, EVEL_JSON_EMIT.close_object]))).length
                  : Int))
          else Except.error EVEL_ABORT.depth_not_zero := by
  unfold evel_json_encode_event
  rw [evel_json_encode_event_jbuf_eq]
  cases hd : evel_json_encode_event_dispatch event.header.event_domain with
  | none => rfl
  | some encoder =>
    dsimp only
    cases hops : encoder_emits env ext max_size encoder
        (ext.evel_get_throttle_spec event.header.event_domain) event with
    | none => rfl
    | some ops =>
      dsimp only
      by_cases hbal : depth_change ops = 0
      · simp only [hbal, if_true]
        rfl
      · simp only [hbal, if_false]

/-- C12: `evel_json_encode_event` aborts on the assertion of its switch,
returning no byte count, if and only if the domain of the event is
`EVEL_DOMAIN_INTERNAL` or a value outside the enumeration; every domain is one
of these or a known domain, and for every known domain the switch selects an
encoder, so that the call returns a byte count exactly when the selected
encoder passes its own assertions and leaves the nesting balanced. With a
known domain the call still aborts, after the dispatch step, in two cases and
no other: on an assertion inside the selected encoder, which for a heartbeat
is exactly `max_size <= 0`, and on the final `assert(jbuf->depth == 0)` when
the selected encoder leaves the nesting unbalanced. -/
theorem C12_abort_iff_unexpected_domain {β : Type} (env : EVEL_ENVIRONMENT)
    (ext : EVEL_COLLABORATORS β) (max_size : Int) (event : EVEL_EVENT β) :
    (evel_json_encode_event env ext max_size event
          = Except.error EVEL_ABORT.unexpected_domain
        ↔ (event.header.event_domain = EVEL_EVENT_DOMAINS.EVEL_DOMAIN_INTERNAL
            ∨ ∃ raw, event.header.event_domain = EVEL_EVENT_DOMAINS.out_of_range raw))
      ∧ (∀ domain : EVEL_EVENT_DOMAINS,
          domain ∈ known_event_domains
            ∨ domain = EVEL_EVENT_DOMAINS.EVEL_DOMAIN_INTERNAL
            ∨ ∃ raw, domain = EVEL_EVENT_DOMAINS.out_of_range raw)
      ∧ (∀ domain ∈ known_event_domains,
          (evel_json_encode_event_dispatch domain).isSome = true)
      ∧ (∀ encoder,
          evel_json_encode_event_dispatch event.header.event_domain = some encoder →
            ((∃ result, evel_json_encode_event env ext max_size event = Except.ok result)
              ↔ ∃ ops, encoder_emits env ext max_size encoder
                    (ext.evel_get_throttle_spec event.header.event_domain) event = some ops
                  ∧ depth_change ops = 0))
      ∧ (evel_json_encode_event env ext max_size event
            = Except.error EVEL_ABORT.encoder_assertion
          ↔ ∃ encoder,
              evel_json_encode_event_dispatch event.header.event_domain = some encoder
                ∧ encoder_emits env ext max_size encoder
                    (ext.evel_get_throttle_spec event.header.event_domain) event = none)
      ∧ (evel_json_encode_event env ext max_size event
            = Except.error EVEL_ABORT.depth_not_zero
          ↔ ∃ encoder ops,
              evel_json_encode_event_dispatch event.header.event_domain = some encoder
                ∧ encoder_emits env ext max_size encoder
                    (ext.evel_get_throttle_spec event.header.event_domain) event = some ops
                ∧ depth_change ops ≠ 0)
      ∧ (event.header.event_domain = EVEL_EVENT_DOMAINS.EVEL_DOMAIN_HEARTBEAT →
          ((∃ abort, evel_json_encode_event env ext max_size event = Except.error abort)
            ↔ max_size ≤ 0)) := by
  refine ⟨?_, ?_, ?_, ?_, ?_, ?_, ?_⟩
  · rw [evel_json_encode_event_eq]
    cases hd : evel_json_encode_event_dispatch event.header.event_domain with
    | none =>
      simp only [true_iff]
      cases hdom : event.header.event_domain <;>
        simp [hdom, evel_json_encode_event_dispatch] at hd ⊢
    | some encoder =>
      have hnot : ¬ (event.header.event_domain = EVEL_EVENT_DOMAINS.EVEL_DOMAIN_INTERNAL
          ∨ ∃ raw, event.header.event_domain = EVEL_EVENT_DOMAINS.out_of_range raw) := by
        rintro (h | ⟨raw, h⟩) <;> simp [h, evel_json_encode_event_dispatch] at hd
      simp only [hnot, iff_false]
      cases encoder_emits env ext max_size encoder
          (ext.evel_get_throttle_spec event.header.event_domain) event with
      | none => simp
      | some ops =>
        by_cases hbal : depth_change ops = 0 <;> simp [hbal]
  · intro domain
    cases domain <;> simp [known_event_domains]
  · intro domain hdomain
    simp only [known_event_domains, List.mem_cons, List.mem_singleton, List.not_mem_nil,
      or_false] at hdomain
    rcases hdomain with h | h | h | h | h | h | h | h | h | h | h <;> rw [h] <;> rfl
  · intro encoder hd
    rw [evel_json_encode_event_eq, hd]
    dsimp only
    cases encoder_emits env ext max_size encoder
        (ext.evel_get_throttle_spec event.header.event_domain) event with
    | none => simp
    | some ops =>
      by_cases hbal : depth_change ops = 0 <;> simp [hbal]
  · rw [evel_json_encode_event_eq]
    cases hd : evel_json_encode_event_dispatch event.header.event_domain with
    | none => simp
    | some encoder =>
      dsimp only
      cases hops : encoder_emits env ext max_size encoder
          (ext.evel_get_throttle_spec event.header.event_domain) event with
      | none => simp [hops]
      | some ops =>
        by_cases hbal : depth_change ops = 0 <;> simp [hbal, hops]
  · rw [evel_json_encode_event_eq]
    cases hd : evel_json_encode_event_dispatch event.header.event_domain with
    | none => simp
    | some encoder =>
      dsimp only
      cases hops : encoder_emits env ext max_size encoder
          (ext.evel_get_throttle_spec event.header.event_domain) event with
      | none => simp [hops]
      | some ops =>
        by_cases hbal : depth_change ops = 0 <;> simp [hbal, hops]
  · intro hdomain
    rw [evel_json_encode_event_eq, hdomain]
    simp only [evel_json_encode_event_dispatch, encoder_emits]
    by_cases hsize : max_size ≤ 0
    · simp [hsize]
    · simp [hsize, depth_change_header_emits]

/-- Counterexample to C12 as literally stated: the first heartbeat of a
process encoded with `max_size = 0`. The domain is the known domain
`EVEL_DOMAIN_HEARTBEAT`, the switch selects the header encoder, and the call
aborts on the assertion `jbuf->max_size > 0` of that encoder, returning no
byte count; so aborting is not equivalent to the domain being
`EVEL_DOMAIN_INTERNAL` or outside the enumeration. -/
theorem C12_known_domain_abort_counterexample :
    sample_heartbeat_event.header.event_domain = EVEL_EVENT_DOMAINS.EVEL_DOMAIN_HEARTBEAT
      ∧ EVEL_EVENT_DOMAINS.EVEL_DOMAIN_HEARTBEAT ∈ known_event_domains
      ∧ evel_json_encode_event_dispatch sample_heartbeat_event.header.event_domain
          = some EVEL_ENCODER.evel_json_encode_header
      ∧ evel_json_encode_event sample_env sample_ext 0 sample_heartbeat_event
          = Except.error EVEL_ABORT.encoder_assertion
      ∧ (∀ result, evel_json_encode_event sample_env sample_ext 0 sample_heartbeat_event
          ≠ Except.ok result)
      ∧ ¬ ((∃ abort, evel_json_encode_event sample_env sample_ext 0 sample_heartbeat_event
              = Except.error abort)
            ↔ (sample_heartbeat_event.header.event_domain
                  = EVEL_EVENT_DOMAINS.EVEL_DOMAIN_INTERNAL
                ∨ ∃ raw, sample_heartbeat_event.header.event_domain
                    = EVEL_EVENT_DOMAINS.out_of_range raw)) := by
  have hrun : evel_json_encode_event sample_env sample_ext 0 sample_heartbeat_event
      = Except.error EVEL_ABORT.encoder_assertion := rfl
  have hdomain : sample_heartbeat_event.header.event_domain
      = EVEL_EVENT_DOMAINS.EVEL_DOMAIN_HEARTBEAT := rfl
  refine ⟨hdomain, by decide, rfl, hrun, ?_, ?_⟩
  · intro result h
    rw [hrun] at h
    cases h
  · intro hiff
    rcases hiff.mp ⟨_, hrun⟩ with h | ⟨raw, h⟩
    · rw [hdomain] at h
      cases h
    · rw [hdomain] at h
      cases h

/-- C13, evaluated on the code: the switch routes every known domain but one
to the encoder that belongs to it; an event of the voice quality domain is
handed to `evel_json_encode_other`, the encoder of the domain "other", not to
`evel_json_encode_voice_quality`, so two distinct domains share one encoder. -/
theorem C13_voice_quality_routed_to_other :
    (∀ domain ∈ known_event_domains,
        domain ≠ EVEL_EVENT_DOMAINS.EVEL_DOMAIN_VOICE_QUALITY →
          evel_json_encode_event_dispatch domain = domain_encoder domain)
      ∧ evel_json_encode_event_dispatch EVEL_EVENT_DOMAINS.EVEL_DOMAIN_VOICE_QUALITY
          = some EVEL_ENCODER.evel_json_encode_other
      ∧ domain_encoder EVEL_EVENT_DOMAINS.EVEL_DOMAIN_VOICE_QUALITY
          = some EVEL_ENCODER.evel_json_encode_voice_quality
      ∧ evel_json_encode_event_dispatch EVEL_EVENT_DOMAINS.EVEL_DOMAIN_OTHER
          = evel_json_encode_event_dispatch EVEL_EVENT_DOMAINS.EVEL_DOMAIN_VOICE_QUALITY
      ∧ EVEL_EVENT_DOMAINS.EVEL_DOMAIN_OTHER ≠ EVEL_EVENT_DOMAINS.EVEL_DOMAIN_VOICE_QUALITY
      ∧ (evel_json_encode_event_jbuf sample_env sample_ext 4096
            sample_voice_quality_event).map (fun jbuf => jbuf.json)
          = Except.ok
              [EVEL_JSON_EMIT.open_object, EVEL_JSON_EMIT.open_named_object "event",
                EVEL_JSON_EMIT.kv "encoder"
                  (EVEL_JSON_VALUE.string (some "evel_json_encode_other")),
                EVEL_JSON_EMIT.close_object, EVEL_JSON_EMIT.close_object] := by
  refine ⟨?_, rfl, rfl, rfl, by decide, rfl⟩
  intro domain hdomain hvq
  simp only [known_event_domains, List.mem_cons, List.mem_singleton, List.not_mem_nil,
    or_false] at hdomain
  rcases hdomain with h | h | h | h | h | h | h | h | h | h | h <;> subst h <;>
    first | rfl | exact absurd rfl hvq

/-! ## Bytes and capacity (C14) -/

theorem take_take_append {α : Type} (n : Nat) (xs ys : List α) :
    (xs.take n ++ ys).take n = (xs ++ ys).take n := by
  rcases le_total xs.length n with h | h
  · rw [List.take_of_length_le h]
  · rw [List.take_append_of_le_length (by simp [h]), List.take_take, min_self,
      List.take_append_of_le_length h]

theorem json_write_eq_take (max_size : Int) (region text : List Char)
    (h : region.length ≤ max_size.toNat) :
    json_write max_size region text = (region ++ text).take max_size.toNat := by
  unfold json_write
  rw [List.take_append_eq_append_take, List.take_of_length_le h]

/-- The bounded writes add up to the document cut at capacity. -/
theorem json_region_eq_take (emit_text : Bool → EVEL_JSON_EMIT → List Char) (max_size : Int)
    (ops : List EVEL_JSON_EMIT) :
    ∀ (previous : Option EVEL_JSON_EMIT) (region : List Char),
      region.length ≤ max_size.toNat →
        json_region emit_text max_size previous region ops
          = (region ++ json_document emit_text previous ops).take max_size.toNat := by
  induction ops with
  | nil =>
    intro previous region h
    simp [json_region, json_document, List.take_of_length_le h]
  | cons op ops ih =>
    intro previous region h
    rw [json_region, json_document, json_write_eq_take max_size region _ h,
      ih (some op) _ (by simp), take_take_append, List.append_assoc]

theorem json_region_length_le (emit_text : Bool → EVEL_JSON_EMIT → List Char)
    (max_size : Int) (ops : List EVEL_JSON_EMIT) :
    (json_region emit_text max_size none [] ops).length ≤ max_size.toNat := by
  rw [json_region_eq_take emit_text max_size ops none [] (by simp)]
  simp

theorem encoder_emits_capacity {β : Type} (env : EVEL_ENVIRONMENT)
    (ext : EVEL_COLLABORATORS β) (m1 m2 : Int) (encoder : EVEL_ENCODER)
    (spec : EVEL_THROTTLE_SPEC) (event : EVEL_EVENT β) (h1 : 0 < m1) (h2 : 0 < m2) :
    encoder_emits env ext m1 encoder spec event
      = encoder_emits env ext m2 encoder spec event := by
  cases encoder <;> simp [encoder_emits, not_le.mpr h1, not_le.mpr h2]

/-- When the event encoder returns: the switch selects an encoder, the encoder
passes its assertions and is balanced, the bytes are the document cut at
capacity and the count is their number. -/
theorem evel_json_encode_event_ok_iff {β : Type} (env : EVEL_ENVIRONMENT)
    (ext : EVEL_COLLABORATORS β) (max_size : Int) (event : EVEL_EVENT β)
    (bytes : List Char) (count : Int) :
    evel_json_encode_event env ext max_size event = Except.ok (bytes, count)
      ↔ ∃ encoder ops,
          evel_json_encode_event_dispatch event.header.event_domain = some encoder
            ∧ encoder_emits env ext max_size encoder
                (ext.evel_get_throttle_spec event.header.event_domain) event = some ops
            ∧ depth_change ops = 0
            ∧ bytes = (json_document ext.emit_text none
                (EVEL_JSON_EMIT.open_object :: EVEL_JSON_EMIT.open_named_object "event" ::
                  (ops ++ [EVEL_JSON_EMIT.close_object, EVEL_JSON_EMIT.close_object]))).take
                max_size.toNat
            ∧ count = (bytes.length : Int) := by
  rw [evel_json_encode_event_eq]
  cases hd : evel_json_encode_event_dispatch event.header.event_domain with
  | none => simp
  | some encoder =>
    dsimp only
    constructor
    · intro h
      cases hops : encoder_emits env ext max_size encoder
          (ext.evel_get_throttle_spec event.header.event_domain) event with
      | none =>
        rw [hops] at h
        cases h
      | some ops =>
        rw [hops] at h
        dsimp only at h
        by_cases hbal : depth_change ops = 0
        · rw [if_pos hbal, json_region_eq_take ext.emit_text max_size _ none [] (by simp)] at h
          simp only [List.nil_append, Except.ok.injEq, Prod.mk.injEq] at h
          obtain ⟨h1, h2⟩ := h
          refine ⟨encoder, ops, rfl, hops, hbal, h1.symm, ?_⟩
          rw [← h2, h1]
        · rw [if_neg hbal] at h
          cases h
    · rintro ⟨encoder', ops, henc, hops, hbal, hbytes, hcount⟩
      cases henc
      rw [hops]
      dsimp only
      rw [if_pos hbal, json_region_eq_take ext.emit_text max_size _ none [] (by simp)]
      simp only [List.nil_append]
      rw [hcount, hbytes]

/-- A heartbeat encoded into a buffer of positive capacity: the call returns. -/
theorem heartbeat_event_returns {β : Type} (env : EVEL_ENVIRONMENT)
    (ext : EVEL_COLLABORATORS β) (max_size : Int) (event : EVEL_EVENT β)
    (hdomain : event.header.event_domain = EVEL_EVENT_DOMAINS.EVEL_DOMAIN_HEARTBEAT)
    (hsize : 0 < max_size) :
    ∃ bytes count,
      evel_json_encode_event env ext max_size event = Except.ok (bytes, count) := by
  refine ⟨_, _, (evel_json_encode_event_ok_iff env ext max_size event _ _).mpr
    ⟨EVEL_ENCODER.evel_json_encode_header,
      header_emits env (ext.evel_get_throttle_spec event.header.event_domain) event.header,
      ?_, ?_, ?_, rfl, rfl⟩⟩
  · rw [hdomain]
    rfl
  · simp [encoder_emits, not_le.mpr hsize]
  · exact depth_change_header_emits env _ _

/-- C14: for every event and every capacity `max_size > 0`, a byte count that
`evel_json_encode_event` returns is at most `max_size` and is the number of
bytes written, so that no byte lies at an offset `max_size` or beyond; for a
heartbeat the call does return; and when the document that fits a capacity
with room to spare has `length` bytes and `max_size = length - 1`, the call
returns the first `max_size` bytes of that document and the count `max_size`,
which is less than `length`. -/
theorem C14_count_within_capacity {β : Type} (env : EVEL_ENVIRONMENT)
    (ext : EVEL_COLLABORATORS β) (max_size : Int) (event : EVEL_EVENT β)
    (hsize : 0 < max_size) :
    (∀ bytes count,
        evel_json_encode_event env ext max_size event = Except.ok (bytes, count) →
          count ≤ max_size ∧ (bytes.length : Int) = count)
      ∧ (event.header.event_domain = EVEL_EVENT_DOMAINS.EVEL_DOMAIN_HEARTBEAT →
          ∃ bytes count,
            evel_json_encode_event env ext max_size event = Except.ok (bytes, count))
      ∧ (∀ (capacity : Int) (document : List Char) (length : Int),
          evel_json_encode_event env ext capacity event = Except.ok (document, length) →
          length < capacity → max_size = length - 1 →
            evel_json_encode_event env ext max_size event
                = Except.ok (document.take max_size.toNat, max_size)
              ∧ max_size < length) := by
  refine ⟨?_, ?_, ?_⟩
  · intro bytes count h
    obtain ⟨encoder, ops, -, -, -, hbytes, hcount⟩ :=
      (evel_json_encode_event_ok_iff env ext max_size event bytes count).mp h
    refine ⟨?_, hcount.symm⟩
    have hlen : bytes.length ≤ max_size.toNat := by
      rw [hbytes]
      simp
    rw [hcount]
    omega
  · intro hdomain
    exact heartbeat_event_returns env ext max_size event hdomain hsize
  · intro capacity document length h hroom hmax
    obtain ⟨encoder, ops, hd, hops, hbal, hdoc, hlength⟩ :=
      (evel_json_encode_event_ok_iff env ext capacity event document length).mp h
    have hcap : 0 < capacity := by omega
    have hfull : (json_document ext.emit_text none
        (EVEL_JSON_EMIT.open_object :: EVEL_JSON_EMIT.open_named_object "event" ::
          (ops ++ [EVEL_JSON_EMIT.close_object, EVEL_JSON_EMIT.close_object]))).length
        < capacity.toNat := by
      by_contra hnot
      have : document.length = capacity.toNat := by
        rw [hdoc, List.length_take]
        omega
      omega
    have hdoc' : document = json_document ext.emit_text none
        (EVEL_JSON_EMIT.open_object :: EVEL_JSON_EMIT.open_named_object "event" ::
          (ops ++ [EVEL_JSON_EMIT.close_object, EVEL_JSON_EMIT.close_object])) := by
      rw [hdoc, List.take_of_length_le (le_of_lt hfull)]
    refine ⟨?_, by omega⟩
    rw [evel_json_encode_event_ok_iff]
    refine ⟨encoder, ops, hd, ?_, hbal, ?_, ?_⟩
    · rw [encoder_emits_capacity env ext max_size capacity encoder _ event hsize hcap]
      exact hops
    · rw [← hdoc']
    · rw [List.length_take]
      omega

set_option maxRecDepth 100000 in
/-- Witness of C14: the document of the first heartbeat of a process has 374
bytes; encoded into 373 bytes, it is cut to its first 373 bytes. -/
theorem C14_count_within_capacity_witness :
    (0 : Int) < 373
      ∧ ∃ document : List Char,
          evel_json_encode_event sample_env sample_ext 4096 sample_heartbeat_event
              = Except.ok (document, 374)
            ∧ evel_json_encode_event sample_env sample_ext 373 sample_heartbeat_event
              = Except.ok (document.take (373 : Int).toNat, 373)
            ∧ (373 : Int) < 374 := by
  have hfull : ∃ document : List Char,
      evel_json_encode_event sample_env sample_ext 4096 sample_heartbeat_event
        = Except.ok (document, 374) := ⟨_, rfl⟩
  obtain ⟨document, hdocument⟩ := hfull
  have hcut := (C14_count_within_capacity sample_env sample_ext 373 sample_heartbeat_event
    (by decide)).2.2 4096 document 374 hdocument (by decide) (by decide)
  exact ⟨by decide, document, hdocument, hcut.1, hcut.2⟩

/-! ## Determinism of the encoding (C15) -/

/-- C15: for every event, capacity and throttle specification of the event's
domain, two calls of `evel_json_encode_event` in a row, with the same body
encoders and buffer engine and the same throttle specification for that
domain, give the same result (the same bytes and the same byte count, or the
same abort), and the event and the static `event_sequence` are after each call
what they were before it. -/
theorem C15_encoding_deterministic {β : Type} (env : EVEL_ENVIRONMENT)
    (ext later : EVEL_COLLABORATORS β) (max_size : Int) (memory : EVEL_MEMORY β)
    (hspec : later.evel_get_throttle_spec memory.event.header.event_domain
      = ext.evel_get_throttle_spec memory.event.header.event_domain)
    (hbody : later.body_encoder = ext.body_encoder)
    (htext : later.emit_text = ext.emit_text) :
    let first := evel_json_encode_event_step env ext max_size memory
    let second := evel_json_encode_event_step env later max_size first.2
    second.1 = first.1 ∧ first.2 = memory ∧ second.2 = memory
      ∧ first.2.event.header = memory.event.header
      ∧ first.2.event_sequence = memory.event_sequence := by
  intro first second
  refine ⟨?_, rfl, rfl, rfl, rfl⟩
  show evel_json_encode_event env later max_size memory.event
    = evel_json_encode_event env ext max_size memory.event
  rw [evel_json_encode_event_eq, evel_json_encode_event_eq, hspec, htext]
  have hemits : ∀ encoder, encoder_emits env later max_size encoder
      (ext.evel_get_throttle_spec memory.event.header.event_domain) memory.event
      = encoder_emits env ext max_size encoder
        (ext.evel_get_throttle_spec memory.event.header.event_domain) memory.event := by
    intro encoder
    cases encoder <;> simp [encoder_emits, hbody]
  simp only [hemits]

/-- Witness of C15: the first heartbeat of a process encoded twice into 4096
bytes, the throttle specifications of the other domains changed in between. -/
theorem C15_encoding_deterministic_witness :
    (evel_json_encode_event_step sample_env sample_ext_later 4096
        (evel_json_encode_event_step sample_env sample_ext 4096 sample_memory).2).1
        = (evel_json_encode_event_step sample_env sample_ext 4096 sample_memory).1
      ∧ (evel_json_encode_event_step sample_env sample_ext 4096 sample_memory).2
        = sample_memory
      ∧ (evel_json_encode_event_step sample_env sample_ext_later 4096
          (evel_json_encode_event_step sample_env sample_ext 4096 sample_memory).2).2
        = sample_memory
      ∧ (evel_json_encode_event_step sample_env sample_ext 4096 sample_memory).2.event.header
        = sample_memory.event.header
      ∧ (evel_json_encode_event_step sample_env sample_ext 4096
          sample_memory).2.event_sequence = sample_memory.event_sequence :=
  C15_encoding_deterministic sample_env sample_ext sample_ext_later 4096 sample_memory
    rfl rfl rfl

/-! ## The vendor field (C16) -/

/-- C16: `evel_init_vendor_field(v, name)` leaves the vendor name equal to
`name` and the VF-module name and the VNF name unset; on the initialised field
`evel_vendor_field_module_set` and `evel_vendor_field_vnfname_set` called with
`a` and then `b` leave their option set with value `a`; and on every vendor
field each of the two setters changes its own option only. -/
theorem C16_vendor_field (vfield other : VENDOR_VNFNAME_FIELD) (name a b s : String) :
    (∃ v, evel_init_vendor_field vfield (some name) = some v
        ∧ v.vendorname = some name
        ∧ v.vfmodule.is_set = false
        ∧ v.vnfname.is_set = false
        ∧ (evel_vendor_field_module_set v (some a)).bind
            (fun v1 => evel_vendor_field_module_set v1 (some b))
          = some { v with vfmodule := { is_set := true, value := some a } }
        ∧ (evel_vendor_field_vnfname_set v (some a)).bind
            (fun v1 => evel_vendor_field_vnfname_set v1 (some b))
          = some { v with vnfname := { is_set := true, value := some a } })
      ∧ (∃ changed, evel_vendor_field_module_set other (some s) = some changed
          ∧ changed.vendorname = other.vendorname ∧ changed.vnfname = other.vnfname)
      ∧ (∃ changed, evel_vendor_field_vnfname_set other (some s) = some changed
          ∧ changed.vendorname = other.vendorname ∧ changed.vfmodule = other.vfmodule) :=
  ⟨⟨_, rfl, rfl, rfl, rfl, rfl, rfl⟩, ⟨_, rfl, rfl, rfl⟩, ⟨_, rfl, rfl, rfl⟩⟩

/-! ## The fields of a fresh header (C17, C18) -/

/-- C17: for every header initialised by `evel_init_header`,
`start_epoch_microsec` equals `last_epoch_microsec`, both being the one time
read at creation, and the priority is `EVEL_PRIORITY_NORMAL`. -/
theorem C17_fresh_header_times (env : EVEL_ENVIRONMENT) (event_sequence : Int)
    (tv : timeval) (header : EVENT_HEADER) (eventname : Option String) :
    let h := (evel_init_header env event_sequence tv header eventname).1
    h.start_epoch_microsec = h.last_epoch_microsec
      ∧ h.last_epoch_microsec
        = to_ull (wrap_long (tv.tv_usec + wrap_long (1000000 * tv.tv_sec)))
      ∧ h.priority = EVEL_EVENT_PRIORITIES.EVEL_PRIORITY_NORMAL := by
  intro h
  exact ⟨rfl, rfl, rfl⟩

/-- C18: for every header initialised by `evel_init_header`,
`reporting_entity_name` and `source_name` are the VM name of the metadata
provider, `reporting_entity_id` and `source_id` are set with the VM UUID as
value, and the header encoder, on a buffer of positive capacity whose throttle
specification suppresses neither key, emits `reportingEntityId` and `sourceId`
with the VM UUID. -/
theorem C18_fresh_header_entities (env : EVEL_ENVIRONMENT) (event_sequence : Int)
    (tv : timeval) (header : EVENT_HEADER) (eventname : Option String)
    (jbuf : EVEL_JSON_BUFFER) (hsize : 0 < jbuf.max_size)
    (hentity : jbuf.throttle_spec.is_suppressed "reportingEntityId" = false)
    (hsource : jbuf.throttle_spec.is_suppressed "sourceId" = false) :
    let h := (evel_init_header env event_sequence tv header eventname).1
    h.reporting_entity_name = some env.openstack_vm_name
      ∧ h.source_name = some env.openstack_vm_name
      ∧ h.reporting_entity_id = { is_set := true, value := some env.openstack_vm_uuid }
      ∧ h.source_id = { is_set := true, value := some env.openstack_vm_uuid }
      ∧ ∃ jbuf', evel_json_encode_header env jbuf h = some jbuf'
          ∧ EVEL_JSON_EMIT.kv "reportingEntityId"
              (EVEL_JSON_VALUE.string (some env.openstack_vm_uuid))
            ∈ emitted_between jbuf jbuf'
          ∧ EVEL_JSON_EMIT.kv "sourceId"
              (EVEL_JSON_VALUE.string (some env.openstack_vm_uuid))
            ∈ emitted_between jbuf jbuf'
          ∧ "reportingEntityId" ∈ emitted_keys (emitted_between jbuf jbuf')
          ∧ "sourceId" ∈ emitted_keys (emitted_between jbuf jbuf') := by
  intro h
  refine ⟨rfl, rfl, rfl, rfl, ?_⟩
  obtain ⟨jbuf', henc, -, hem⟩ := encode_header_emitted env jbuf h hsize
  have hid : ("reportingEntityId", h.reporting_entity_id)
      ∈ header_optional_present jbuf.throttle_spec h := by
    simp [header_optional_present, header_optional_fields, List.mem_filter, hentity, h,
      evel_init_header, evel_force_option_string]
  have hsrc : ("sourceId", h.source_id) ∈ header_optional_present jbuf.throttle_spec h := by
    simp [header_optional_present, header_optional_fields, List.mem_filter, hsource, h,
      evel_init_header, evel_force_option_string]
  have hkey := encode_header_keys env jbuf h
  refine ⟨jbuf', henc, ?_, ?_, ?_, ?_⟩
  · rw [hem]
    refine List.mem_cons_of_mem _ (List.mem_append_right _ (List.mem_append_left _ ?_))
    exact List.mem_map.mpr ⟨_, hid, rfl⟩
  · rw [hem]
    refine List.mem_cons_of_mem _ (List.mem_append_right _ (List.mem_append_left _ ?_))
    exact List.mem_map.mpr ⟨_, hsrc, rfl⟩
  · rw [hem, hkey]
    exact List.mem_append_right _ (List.mem_map.mpr ⟨_, hid, rfl⟩)
  · rw [hem, hkey]
    exact List.mem_append_right _ (List.mem_map.mpr ⟨_, hsrc, rfl⟩)

/-- Witness of C18: the first header of a process, encoded into the buffer
that `evel_json_encode_event` prepares, nothing throttled. -/
theorem C18_fresh_header_entities_witness :
    0 < (sample_jbuf throttle_nothing).max_size
      ∧ sample_header.reporting_entity_name = some "vm-1"
      ∧ sample_header.source_name = some "vm-1"
      ∧ sample_header.reporting_entity_id = { is_set := true, value := some "uuid-1" }
      ∧ sample_header.source_id = { is_set := true, value := some "uuid-1" }
      ∧ ∃ jbuf', evel_json_encode_header sample_env (sample_jbuf throttle_nothing)
            sample_header = some jbuf'
          ∧ EVEL_JSON_EMIT.kv "reportingEntityId" (EVEL_JSON_VALUE.string (some "uuid-1"))
            ∈ emitted_between (sample_jbuf throttle_nothing) jbuf'
          ∧ EVEL_JSON_EMIT.kv "sourceId" (EVEL_JSON_VALUE.string (some "uuid-1"))
            ∈ emitted_between (sample_jbuf throttle_nothing) jbuf'
          ∧ "reportingEntityId"
            ∈ emitted_keys (emitted_between (sample_jbuf throttle_nothing) jbuf')
          ∧ "sourceId" ∈ emitted_keys (emitted_between (sample_jbuf throttle_nothing) jbuf') :=
  ⟨by decide, C18_fresh_header_entities sample_env event_sequence_initial sample_tv
    EVENT_HEADER_zeroed none (sample_jbuf throttle_nothing) (by decide) rfl rfl⟩

/-! ## The event id after creation (C19) -/

/-- No operation on a header in a running process changes its `sequence` or
its `event_id`. -/
theorem header_operation_step_keeps_id (env : EVEL_ENVIRONMENT)
    (state next : Int × EVENT_HEADER) (op : HEADER_OPERATION)
    (hstep : header_operation_step env state op = some next) :
    next.2.sequence = state.2.sequence ∧ next.2.event_id = state.2.event_id := by
  cases op with
  | header_type_set type =>
    cases type <;> simp [header_operation_step, evel_header_type_set] at hstep
    subst hstep
    exact ⟨rfl, rfl⟩
  | start_epoch_set t =>
    simp [header_operation_step, evel_start_epoch_set] at hstep
    subst hstep
    exact ⟨rfl, rfl⟩
  | last_epoch_set t =>
    simp [header_operation_step, evel_last_epoch_set] at hstep
    subst hstep
    exact ⟨rfl, rfl⟩
  | nfcnamingcode_set nfcnam =>
    cases nfcnam <;> simp [header_operation_step, evel_nfcnamingcode_set] at hstep
    subst hstep
    exact ⟨rfl, rfl⟩
  | nfnamingcode_set nfnam =>
    cases nfnam <;> simp [header_operation_step, evel_nfnamingcode_set] at hstep
    subst hstep
    exact ⟨rfl, rfl⟩
  | reporting_entity_name_set entity_name =>
    cases entity_name <;>
      simp [header_operation_step, evel_reporting_entity_name_set] at hstep
    cases hname : state.2.reporting_entity_name with
    | none => simp [hname] at hstep
    | some old =>
      simp [hname] at hstep
      subst hstep
      exact ⟨rfl, rfl⟩
  | reporting_entity_id_set entity_id =>
    cases entity_id <;> simp [header_operation_step, evel_reporting_entity_id_set] at hstep
    subst hstep
    exact ⟨rfl, rfl⟩
  | json_encode_header jbuf =>
    simp only [header_operation_step, Option.map_eq_some'] at hstep
    obtain ⟨_, -, rfl⟩ := hstep
    exact ⟨rfl, rfl⟩
  | set_next_event_sequence sequence =>
    simp [header_operation_step] at hstep
    subst hstep
    exact ⟨rfl, rfl⟩
  | init_other_header call =>
    simp [header_operation_step] at hstep
    subst hstep
    exact ⟨rfl, rfl⟩

theorem header_operations_run_keeps_id (env : EVEL_ENVIRONMENT) (ops : List HEADER_OPERATION) :
    ∀ state final : Int × EVENT_HEADER, header_operations_run env state ops = some final →
      final.2.sequence = state.2.sequence ∧ final.2.event_id = state.2.event_id := by
  induction ops with
  | nil =>
    intro state final hrun
    simp only [header_operations_run, Option.some.injEq] at hrun
    subst hrun
    exact ⟨rfl, rfl⟩
  | cons op ops ih =>
    intro state final hrun
    rw [header_operations_run] at hrun
    cases hstep : header_operation_step env state op with
    | none => rw [hstep] at hrun; cases hrun
    | some next =>
      rw [hstep] at hrun
      have h1 := header_operation_step_keeps_id env state next op hstep
      have h2 := ih next final hrun
      exact ⟨h2.1.trans h1.1, h2.2.trans h1.2⟩

/-- C19: right after `evel_init_header` the header's `event_id` is the decimal
string of its `sequence`, and after every sequence of later operations (the
seven mutators and the encoder applied to that header,
`evel_set_next_event_sequence`, the initialisation of other headers) the
header has the same `sequence` and the same `event_id`, so the `event_id` is
still the decimal string of the `sequence`. -/
theorem C19_event_id_never_recomputed (env : EVEL_ENVIRONMENT) (event_sequence : Int)
    (call : INIT_CALL) (ops : List HEADER_OPERATION) (final : Int × EVENT_HEADER)
    (hsize : 12 ≤ env.EVEL_MAX_STRING_LEN) (hlo : INT_MIN ≤ event_sequence)
    (hhi : event_sequence ≤ INT_MAX)
    (hrun : header_operations_run env
      ((evel_init_header env event_sequence call.tv call.header call.eventname).2,
       (evel_init_header env event_sequence call.tv call.header call.eventname).1) ops
      = some final) :
    let created := (evel_init_header env event_sequence call.tv call.header call.eventname).1
    created.event_id = some (Int.repr created.sequence)
      ∧ final.2.sequence = created.sequence
      ∧ final.2.event_id = created.event_id
      ∧ final.2.event_id = some (Int.repr final.2.sequence) := by
  intro created
  have hid : created.event_id = some (Int.repr created.sequence) := by
    have := snprintf_d_int env.EVEL_MAX_STRING_LEN event_sequence hsize hlo hhi
    simp [created, evel_init_header, this]
  have hkeep := header_operations_run_keeps_id env ops _ final hrun
  exact ⟨hid, hkeep.1, hkeep.2, by rw [hkeep.2, hkeep.1]; exact hid⟩

/-- Witness of C19: the first header of a process, then a mutator of each
kind, an encoding, an override of the counter and another creation. -/
theorem C19_event_id_never_recomputed_witness :
    ∃ final : Int × EVENT_HEADER,
      header_operations_run sample_env
          ((evel_init_header sample_env 1 sample_call.tv sample_call.header
              sample_call.eventname).2,
           (evel_init_header sample_env 1 sample_call.tv sample_call.header
              sample_call.eventname).1) sample_operations = some final
        ∧ final.1 = 101
        ∧ final.2.sequence = 1
        ∧ final.2.event_id = some "1"
        ∧ final.2.event_id = some (Int.repr final.2.sequence) := by
  have hrun : ∃ final : Int × EVENT_HEADER,
      header_operations_run sample_env
          ((evel_init_header sample_env 1 sample_call.tv sample_call.header
              sample_call.eventname).2,
           (evel_init_header sample_env 1 sample_call.tv sample_call.header
              sample_call.eventname).1) sample_operations = some final
        ∧ final.1 = 101 := ⟨_, rfl, rfl⟩
  obtain ⟨final, hfinal, hcounter⟩ := hrun
  have h := C19_event_id_never_recomputed sample_env 1 sample_call sample_operations final
    (by decide) (by decide) (by decide) hfinal
  exact ⟨final, hfinal, hcounter, h.2.1, h.2.2.1, h.2.2.2⟩

/-! ## The two timestamps (C20) -/

/-- C20: `evel_start_epoch_set(h, t)` stores `t` in `start_epoch_microsec` and
changes no other field, `evel_last_epoch_set(h, t)` stores `t` in
`last_epoch_microsec` and changes no other field, for every `t`; so from every
header two setter calls reach a header whose `start_epoch_microsec` exceeds its
`last_epoch_microsec`. -/
theorem C20_timestamps_independent (header : EVENT_HEADER) (t : Nat) :
    evel_start_epoch_set header t = { header with start_epoch_microsec := t }
      ∧ evel_last_epoch_set header t = { header with last_epoch_microsec := t }
      ∧ (evel_start_epoch_set header t).last_epoch_microsec = header.last_epoch_microsec
      ∧ (evel_last_epoch_set header t).start_epoch_microsec = header.start_epoch_microsec
      ∧ (evel_start_epoch_set (evel_last_epoch_set header 0) 1).start_epoch_microsec
          > (evel_start_epoch_set (evel_last_epoch_set header 0) 1).last_epoch_microsec := by
  refine ⟨rfl, rfl, rfl, rfl, ?_⟩
  show 1 > 0
  omega

/-! ## The releases of `evel_free_header` (C21) -/

/-- C21: the release actions of `evel_free_header` release each of the four
owned strings and each of the six optional fields once and only once, the
strings through `free` and the options through their own release function, and
never the storage of the header itself; the ten releases are all there is. -/
theorem C21_free_header_releases_once (event : EVENT_HEADER) :
    (∀ resource ∈ header_owned_strings,
        ((evel_free_header event).2.map released_resource).count resource = 1
          ∧ RELEASE_ACTION.free resource ∈ (evel_free_header event).2)
      ∧ (∀ resource ∈ header_option_resources,
        ((evel_free_header event).2.map released_resource).count resource = 1)
      ∧ ((evel_free_header event).2.map released_resource).count
          HEADER_RESOURCE.header_storage = 0
      ∧ (evel_free_header event).2.length = 10
      ∧ (evel_free_header event).1.event_type.is_set = false
      ∧ (evel_free_header event).1.reporting_entity_id.is_set = false
      ∧ (evel_free_header event).1.source_id.is_set = false
      ∧ (evel_free_header event).1.nfcnaming_code.is_set = false
      ∧ (evel_free_header event).1.nfnaming_code.is_set = false
      ∧ (evel_free_header event).1.internal_field.is_set = false := by
  have hlist : (evel_free_header event).2 = (evel_free_header EVENT_HEADER_zeroed).2 := rfl
  refine ⟨?_, ?_, rfl, rfl, rfl, rfl, rfl, rfl, rfl, rfl⟩
  · intro resource hresource
    simp only [header_owned_strings, List.mem_cons, List.mem_singleton, List.not_mem_nil,
      or_false] at hresource
    rw [hlist]
    rcases hresource with h | h | h | h <;> subst h <;> decide
  · intro resource hresource
    simp only [header_option_resources, List.mem_cons, List.mem_singleton, List.not_mem_nil,
      or_false] at hresource
    rw [hlist]
    rcases hresource with h | h | h | h | h | h <;> subst h <;> decide

/-! ## The encoded vendor field (C22) -/

/-- The vendor field encoder, as one equation. -/
theorem evel_json_encode_vendor_field_eq (jbuf : EVEL_JSON_BUFFER)
    (vfield : VENDOR_VNFNAME_FIELD) (name : String) (hsize : 0 < jbuf.max_size)
    (hname : vfield.vendorname = some name) :
    evel_json_encode_vendor_field jbuf vfield =
      some { jbuf with
        json := jbuf.json ++
          (EVEL_JSON_EMIT.open_named_object "vendorVnfNamedFields" ::
            EVEL_JSON_EMIT.kv "vendorName" (EVEL_JSON_VALUE.string (some name)) ::
              ((vendor_optional_present jbuf.throttle_spec vfield).map
                (fun field => member_emit (option_member field)) ++
              [EVEL_JSON_EMIT.close_object])) } := by
  unfold evel_json_encode_vendor_field
  rw [if_neg (not_le.mpr hsize), hname]
  simp only [evel_enc_kv_opt_string_json]
  simp only [vendor_optional_present, vendor_optional_fields, filter_cons_append,
    List.filter_nil, List.map_append, List.append_nil]
  simp [evel_json_open_named_object, evel_enc_kv_string, evel_json_close_object]

/-- C22 (as amended): for every vendor field with a vendor name, on a buffer
of positive capacity, `evel_json_encode_vendor_field` emits one named object
"vendorVnfNamedFields" whose first member is `vendorName`, followed by
`vfModuleName` if and only if the VF-module option is set and its key is not
suppressed by the throttle specification of the buffer, and by `vnfName` if
and only if the VNF-name option is set and its key is not suppressed, in that
order; it closes the object it opened, and the nesting depth after the call is
the depth before it. -/
theorem C22_vendor_field_keys (jbuf : EVEL_JSON_BUFFER) (vfield : VENDOR_VNFNAME_FIELD)
    (name : String) (hsize : 0 < jbuf.max_size) (hname : vfield.vendorname = some name) :
    ∃ jbuf' : EVEL_JSON_BUFFER,
      evel_json_encode_vendor_field jbuf vfield = some jbuf'
        ∧ emitted_between jbuf jbuf' =
            EVEL_JSON_EMIT.open_named_object "vendorVnfNamedFields" ::
              EVEL_JSON_EMIT.kv "vendorName" (EVEL_JSON_VALUE.string (some name)) ::
                (((vendor_optional_fields vfield).filter
                    (fun field =>
                      field.2.is_set && !jbuf.throttle_spec.is_suppressed field.1)).map
                  (fun field => member_emit (option_member field)) ++
                [EVEL_JSON_EMIT.close_object])
        ∧ emitted_keys (emitted_between jbuf jbuf') =
            "vendorName" ::
              ((vendor_optional_fields vfield).filter
                (fun field =>
                  field.2.is_set && !jbuf.throttle_spec.is_suppressed field.1)).map Prod.fst
        ∧ depth_change (emitted_between jbuf jbuf') = 0
        ∧ jbuf'.depth = jbuf.depth := by
  have heq := evel_json_encode_vendor_field_eq jbuf vfield name hsize hname
  have hem : emitted_between jbuf
      { jbuf with
        json := jbuf.json ++
          (EVEL_JSON_EMIT.open_named_object "vendorVnfNamedFields" ::
            EVEL_JSON_EMIT.kv "vendorName" (EVEL_JSON_VALUE.string (some name)) ::
              ((vendor_optional_present jbuf.throttle_spec vfield).map
                (fun field => member_emit (option_member field)) ++
              [EVEL_JSON_EMIT.close_object])) }
      = EVEL_JSON_EMIT.open_named_object "vendorVnfNamedFields" ::
          EVEL_JSON_EMIT.kv "vendorName" (EVEL_JSON_VALUE.string (some name)) ::
            ((vendor_optional_present jbuf.throttle_spec vfield).map
              (fun field => member_emit (option_member field)) ++
            [EVEL_JSON_EMIT.close_object]) := by
    simp [emitted_between]
  refine ⟨_, heq, hem, ?_, ?_, rfl⟩
  · rw [hem]
    unfold emitted_keys
    rw [List.filterMap_cons, List.filterMap_cons, List.filterMap_append, List.filterMap_map]
    have hkey : (emit_key ∘ fun field : String × EVEL_OPTION_STRING =>
        member_emit (option_member field)) = (some ∘ Prod.fst) := rfl
    rw [hkey, List.filterMap_eq_map]
    simp [emit_key, vendor_optional_present]
  · rw [hem]
    have hopt := depth_change_members option_member
      (vendor_optional_present jbuf.throttle_spec vfield)
    rw [show ∀ (x y : EVEL_JSON_EMIT) (xs : List EVEL_JSON_EMIT),
      x :: y :: xs = [x, y] ++ xs from fun _ _ _ => rfl, depth_change_append,
      depth_change_append, hopt]
    rfl

/-- Witness of C22: a vendor field with its module name set, encoded into the
buffer that `evel_json_encode_event` prepares, nothing throttled. -/
theorem C22_vendor_field_keys_witness :
    0 < (sample_jbuf throttle_nothing).max_size
      ∧ sample_vendor_field.vendorname = some "vendor"
      ∧ ∃ jbuf' : EVEL_JSON_BUFFER,
        evel_json_encode_vendor_field (sample_jbuf throttle_nothing) sample_vendor_field
            = some jbuf'
          ∧ emitted_keys (emitted_between (sample_jbuf throttle_nothing) jbuf')
            = ["vendorName", "vfModuleName"]
          ∧ jbuf'.depth = (sample_jbuf throttle_nothing).depth := by
  obtain ⟨jbuf', henc, -, hkeys, -, hdepth⟩ :=
    C22_vendor_field_keys (sample_jbuf throttle_nothing) sample_vendor_field "vendor"
      (by decide) rfl
  exact ⟨by decide, rfl, jbuf', henc, hkeys, hdepth⟩

/-- C22 as stated fails when the throttle specification suppresses a key whose
option is set: the VF-module option of the vendor field is set, the buffer
suppresses `vfModuleName`, and the only key emitted is `vendorName`. -/
theorem C22_throttled_counterexample :
    sample_vendor_field.vfmodule.is_set = true
      ∧ (evel_json_encode_vendor_field (sample_jbuf throttle_vf_module)
          sample_vendor_field).map
          (fun jbuf' => emitted_keys (emitted_between (sample_jbuf throttle_vf_module) jbuf'))
        = some ["vendorName"]
      ∧ (evel_json_encode_vendor_field (sample_jbuf throttle_vf_module)
          sample_vendor_field).map
          (fun jbuf' => emitted_keys (emitted_between (sample_jbuf throttle_vf_module) jbuf'))
        ≠ some ["vendorName", "vfModuleName"] := by
  decide

/-! ## The creation timestamp (C23) -/

/-- A sum below `2 ^ 64` survives the `long` addition and the conversion to
`unsigned long long`, whether or not it exceeds `LONG_MAX` on the way. -/
theorem to_ull_wrap_long (x : Int) (hlo : 0 ≤ x) (hhi : x < 2 ^ 64) :
    (to_ull (wrap_long x) : Int) = x := by
  unfold to_ull wrap_long wrap_signed
  norm_num at hhi ⊢
  omega

/-- C23: for every time reading with `tv_sec >= 0` and
`0 <= tv_usec < 1000000` whose product `1000000 * tv_sec` fits a `long`, the
product is computed without wrap-around and `evel_init_header` stores
`last_epoch_microsec = 1000000 * tv_sec + tv_usec`; the stored value divided
by 1000000 is `tv_sec` and its remainder is `tv_usec`. -/
theorem C23_creation_timestamp_exact (env : EVEL_ENVIRONMENT) (event_sequence : Int)
    (tv : timeval) (header : EVENT_HEADER) (eventname : Option String)
    (hsec : 0 ≤ tv.tv_sec) (husec : 0 ≤ tv.tv_usec) (hmicro : tv.tv_usec < 1000000)
    (hfits : 1000000 * tv.tv_sec ≤ LONG_MAX) :
    let h := (evel_init_header env event_sequence tv header eventname).1
    wrap_long (1000000 * tv.tv_sec) = 1000000 * tv.tv_sec
      ∧ (h.last_epoch_microsec : Int) = 1000000 * tv.tv_sec + tv.tv_usec
      ∧ (h.last_epoch_microsec : Int) / 1000000 = tv.tv_sec
      ∧ (h.last_epoch_microsec : Int) % 1000000 = tv.tv_usec := by
  intro h
  have hmax : LONG_MAX = 9223372036854775807 := rfl
  have hproduct : wrap_long (1000000 * tv.tv_sec) = 1000000 * tv.tv_sec := by
    unfold wrap_long wrap_signed
    norm_num
    omega
  have hstored : (h.last_epoch_microsec : Int) = 1000000 * tv.tv_sec + tv.tv_usec := by
    show (to_ull (wrap_long (tv.tv_usec + wrap_long (1000000 * tv.tv_sec))) : Int) = _
    rw [hproduct, to_ull_wrap_long _ (by omega) (by norm_num; omega)]
    ring
  refine ⟨hproduct, hstored, ?_, ?_⟩
  · rw [hstored]
    omega
  · rw [hstored]
    omega

/-- Witness of C23: a time reading of the year 2023. -/
theorem C23_creation_timestamp_exact_witness :
    (0 : Int) ≤ sample_tv.tv_sec ∧ (0 : Int) ≤ sample_tv.tv_usec
      ∧ sample_tv.tv_usec < 1000000 ∧ 1000000 * sample_tv.tv_sec ≤ LONG_MAX
      ∧ ((evel_init_header sample_env 1 sample_tv EVENT_HEADER_zeroed none).1.last_epoch_microsec
          : Int) = 1700000000250000
      ∧ ((evel_init_header sample_env 1 sample_tv EVENT_HEADER_zeroed none).1.last_epoch_microsec
          : Int) / 1000000 = 1700000000
      ∧ ((evel_init_header sample_env 1 sample_tv EVENT_HEADER_zeroed none).1.last_epoch_microsec
          : Int) % 1000000 = 250000 :=
  ⟨by decide, by decide, by decide, by decide,
    (C23_creation_timestamp_exact sample_env 1 sample_tv EVENT_HEADER_zeroed none
      (by decide) (by decide) (by decide) (by decide)).2⟩

/-- The time reading at the edge of the `long` range: the sum exceeds
`LONG_MAX` and wraps as a `long`, and the value stored in the unsigned field is
the exact sum all the same. -/
theorem creation_timestamp_at_edge :
    1000000 * edge_tv.tv_sec ≤ LONG_MAX
      ∧ LONG_MAX < edge_tv.tv_usec + 1000000 * edge_tv.tv_sec
      ∧ wrap_long (edge_tv.tv_usec + wrap_long (1000000 * edge_tv.tv_sec)) < 0
      ∧ (evel_init_header sample_env 1 edge_tv EVENT_HEADER_zeroed none).1.last_epoch_microsec
        = 9223372036854999999 := by
  decide
